import Mathlib

/-!
Verification development for the configuration resolution engine of
`dfttk/input_sets.py`.

The source manipulates Python dictionaries (insertion-ordered association
maps with unique keys).  We embed them as association lists
`List (String × α)` together with the operations the source uses:
`get`, `in`-membership, item assignment, `pop` and `update`.  The VASP
input-set classes (`RelaxSet`, `StaticSet`, `ForceConstantsSet`,
`BornChargeSet`, `ElasticSet`) become functions from their arguments to
`Except PyError Config`, where `PyError` records the ways the source can
raise at runtime and `Config` is the final merged settings bundle handed
to the external writer (`DictSet`).
-/

namespace DFTTK

/-- Flat (non-dict) Python values appearing in the configuration dicts:
ints, decimal floats (`float m e` stands for `m * 10 ^ (-(e : Int))`),
strings, booleans, `None`, and the integer mesh lists used for k-point
grids. -/
inductive FVal where
  | pynone
  | int (n : Int)
  | float (m : Int) (e : Nat)
  | str (s : String)
  | bool (b : Bool)
  | intList (l : List Int)
  | intListList (l : List (List Int))
deriving DecidableEq, Repr

/-- A value stored in a user-override dict: either a flat value or a
nested override-group dict (e.g. the value at key `"Static_settings"`). -/
inductive Val where
  | flat (v : FVal)
  | group (g : List (String × FVal))
deriving DecidableEq, Repr

/-- Association-list dictionaries with flat values. -/
abbrev FDict := List (String × FVal)

/-- Association-list dictionaries with possibly-nested values. -/
abbrev VDict := List (String × Val)

/-- `a_kwargs['settings']`: mapping from group name to override group. -/
abbrev SettingsDict := List (String × FDict)

/-- Python `d.get(k)`: value at the first occurrence of key `k`. -/
def dget? {α : Type} : List (String × α) → String → Option α
  | [], _ => none
  | p :: rest, k => if p.1 = k then some p.2 else dget? rest k

/-- Python `k in d`. -/
def dmem {α : Type} : List (String × α) → String → Bool
  | [], _ => false
  | p :: rest, k => if p.1 = k then true else dmem rest k

/-- Python `d[k] = v`: replace in place if the key exists, else append. -/
def dset {α : Type} : List (String × α) → String → α → List (String × α)
  | [], k, v => [(k, v)]
  | p :: rest, k, v => if p.1 = k then (k, v) :: rest else p :: dset rest k v

/-- Python `d.pop(k)` (the removal part; see `dpopE` for the raising
variant). -/
def dpop {α : Type} : List (String × α) → String → List (String × α)
  | [], _ => []
  | p :: rest, k => if p.1 = k then dpop rest k else p :: dpop rest k

/-- Python `d.update(other)`: fold the entries of `other` into `d`. -/
def dupdate {α : Type} (d : List (String × α)) : List (String × α) → List (String × α)
  | [] => d
  | p :: rest => dupdate (dset d p.1 p.2) rest

/-- Keys of a dict, in order. -/
def dkeys {α : Type} (d : List (String × α)) : List String := d.map Prod.fst

/-- A well-formed Python dict has pairwise distinct keys. -/
def NodupKeys {α : Type} (d : List (String × α)) : Prop := (dkeys d).Nodup

instance {α : Type} (d : List (String × α)) : Decidable (NodupKeys d) :=
  List.nodupDecidable (dkeys d)

/-- Runtime errors the source can raise while resolving a configuration. -/
inductive PyError where
  | valueError (msg : String)
  | keyError
  | typeError
  | attributeError
deriving DecidableEq, Repr

/-- Python `d.pop(k)` with no default: raises `KeyError` if `k` is
absent. -/
def dpopE {α : Type} (d : List (String × α)) (k : String) :
    Except PyError (List (String × α)) :=
  if dmem d k then .ok (dpop d k) else .error .keyError

instance {ε α : Type} [DecidableEq ε] [DecidableEq α] :
    DecidableEq (Except ε α) := fun a b =>
  match a, b with
  | .ok x, .ok y =>
    if h : x = y then .isTrue (by rw [h]) else .isFalse (fun hh => h (Except.ok.inj hh))
  | .ok _, .error _ => .isFalse (fun hh => Except.noConfusion hh)
  | .error _, .ok _ => .isFalse (fun hh => Except.noConfusion hh)
  | .error x, .error y =>
    if h : x = y then .isTrue (by rw [h]) else .isFalse (fun hh => h (Except.error.inj hh))

/-! ### Basic dictionary lemmas -/

theorem dmem_eq_isSome {α : Type} (d : List (String × α)) (q : String) :
    dmem d q = (dget? d q).isSome := by
  induction d with
  | nil => simp [dmem, dget?]
  | cons p rest ih =>
    by_cases hp : p.1 = q <;> simp [dmem, dget?, hp, ih]

theorem mem_dkeys_iff_dmem {α : Type} (d : List (String × α)) (q : String) :
    q ∈ dkeys d ↔ dmem d q = true := by
  induction d with
  | nil => simp [dkeys, dmem]
  | cons p rest ih =>
    by_cases hp : p.1 = q
    · simp [dkeys, dmem, hp]
    · simp only [dkeys, List.map_cons, List.mem_cons, dmem, hp, if_false]
      constructor
      · intro h
        rcases h with h | h
        · exact absurd h.symm hp
        · exact ih.mp h
      · intro h
        exact Or.inr (ih.mpr h)

theorem dget?_dset {α : Type} (d : List (String × α)) (k : String) (v : α) (q : String) :
    dget? (dset d k v) q = if q = k then some v else dget? d q := by
  induction d with
  | nil =>
    by_cases h : q = k
    · simp [dset, dget?, h]
    · simp [dset, dget?, h, Ne.symm h]
  | cons p rest ih =>
    by_cases hp : p.1 = k
    · by_cases hq : q = k
      · simp [dset, dget?, hp, hq]
      · simp [dset, dget?, hp, hq, Ne.symm hq]
    · by_cases hpq : p.1 = q
      · have hqk : ¬ q = k := fun h => hp (hpq.trans h)
        simp [dset, dget?, hp, hpq, hqk]
      · simp [dset, dget?, hp, hpq, ih]

theorem dmem_dset {α : Type} (d : List (String × α)) (k : String) (v : α) (q : String) :
    dmem (dset d k v) q = (if q = k then true else dmem d q) := by
  rw [dmem_eq_isSome, dget?_dset, dmem_eq_isSome]
  by_cases h : q = k <;> simp [h]

theorem dget?_dpop {α : Type} (d : List (String × α)) (k : String) (q : String) :
    dget? (dpop d k) q = if q = k then none else dget? d q := by
  induction d with
  | nil => simp [dpop, dget?]
  | cons p rest ih =>
    by_cases hp : p.1 = k
    · rw [dpop, if_pos hp, ih]
      by_cases hq : q = k
      · simp [hq]
      · have h1 : ¬ p.1 = q := fun h => hq (h.symm.trans hp)
        simp [dget?, hq, h1]
    · rw [dpop, if_neg hp]
      by_cases hpq : p.1 = q
      · have hqk : ¬ q = k := fun h => hp (hpq.trans h)
        simp [dget?, hpq, hqk]
      · simp [dget?, hpq, ih]

theorem dmem_dpop {α : Type} (d : List (String × α)) (k : String) (q : String) :
    dmem (dpop d k) q = (if q = k then false else dmem d q) := by
  rw [dmem_eq_isSome, dget?_dpop, dmem_eq_isSome]
  by_cases h : q = k <;> simp [h]

theorem dmem_iff_dget? {α : Type} (d : List (String × α)) (k : String) :
    dmem d k = true ↔ ∃ v, dget? d k = some v := by
  rw [dmem_eq_isSome]
  cases h : dget? d k <;> simp

theorem dget?_of_not_dmem {α : Type} {d : List (String × α)} {k : String}
    (h : dmem d k = false) : dget? d k = none := by
  rw [dmem_eq_isSome] at h
  cases hg : dget? d k with
  | none => rfl
  | some v => rw [hg] at h; cases h

/-- In a dict with distinct keys, a member pair determines the lookup. -/
theorem dget?_of_mem_nodup {α : Type} {d : List (String × α)} {k : String} {v : α}
    (hnd : NodupKeys d) (hmem : (k, v) ∈ d) : dget? d k = some v := by
  induction d with
  | nil => cases hmem
  | cons p rest ih =>
    simp only [NodupKeys, dkeys, List.map_cons, List.nodup_cons] at hnd
    cases hmem with
    | head => simp [dget?]
    | tail _ hm =>
      have hne : ¬ p.1 = k := fun h => hnd.1 (h ▸ List.mem_map.mpr ⟨(k, v), hm, rfl⟩)
      simpa [dget?, hne] using ih hnd.2 hm

theorem dmem_dupdate {α : Type} (d : List (String × α)) (l : List (String × α))
    (q : String) : dmem (dupdate d l) q = (dmem d q || dmem l q) := by
  induction l generalizing d with
  | nil => simp [dupdate, dmem]
  | cons p rest ih =>
    rw [dupdate, ih, dmem_dset]
    by_cases hq : q = p.1
    · simp [dmem, hq]
    · have : ¬ p.1 = q := fun h => hq h.symm
      simp [dmem, hq, this]

theorem dget?_dupdate_of_not_mem {α : Type} (d : List (String × α))
    (l : List (String × α)) (q : String) (h : dmem l q = false) :
    dget? (dupdate d l) q = dget? d q := by
  induction l generalizing d with
  | nil => simp [dupdate]
  | cons p rest ih =>
    simp only [dmem] at h
    by_cases hq : p.1 = q
    · simp [hq] at h
    · simp only [hq, if_false] at h
      have hne : ¬ q = p.1 := fun hh => hq hh.symm
      rw [dupdate, ih _ h, dget?_dset]
      simp [hne]

theorem dget?_dupdate_of_get {α : Type} {l : List (String × α)} {q : String} {v : α}
    (hnd : NodupKeys l) (h : dget? l q = some v) (d : List (String × α)) :
    dget? (dupdate d l) q = some v := by
  induction l generalizing d with
  | nil => simp [dget?] at h
  | cons p rest ih =>
    simp only [NodupKeys, dkeys, List.map_cons, List.nodup_cons] at hnd
    by_cases hp : p.1 = q
    · simp only [dget?, hp, if_true] at h
      have hrest : dmem rest q = false := by
        cases hmr : dmem rest q with
        | false => rfl
        | true => exact absurd (hp ▸ (mem_dkeys_iff_dmem rest q).mpr hmr) hnd.1
      rw [dupdate, dget?_dupdate_of_not_mem _ _ _ hrest, dget?_dset]
      simp [hp, h]
    · simp only [dget?, hp, if_false] at h
      exact ih hnd.2 h _

theorem dkeys_dset_subset {α : Type} (d : List (String × α)) (k : String) (v : α)
    (q : String) (hq : q ∈ dkeys (dset d k v)) : q = k ∨ q ∈ dkeys d := by
  induction d with
  | nil =>
    simp [dset, dkeys] at hq
    exact Or.inl hq
  | cons p rest ih =>
    by_cases hp : p.1 = k
    · simp only [dset, hp, if_true, dkeys, List.map_cons] at hq ⊢
      rcases List.mem_cons.mp hq with h | h
      · exact Or.inl h
      · exact Or.inr (List.mem_cons.mpr (Or.inr h))
    · simp only [dset, hp, if_false, dkeys, List.map_cons] at hq ⊢
      rcases List.mem_cons.mp hq with h | h
      · exact Or.inr (List.mem_cons.mpr (Or.inl h))
      · rcases ih h with h1 | h2
        · exact Or.inl h1
        · exact Or.inr (List.mem_cons.mpr (Or.inr h2))

theorem nodup_dset {α : Type} {d : List (String × α)} (hnd : NodupKeys d)
    (k : String) (v : α) : NodupKeys (dset d k v) := by
  induction d with
  | nil => simp [dset, NodupKeys, dkeys]
  | cons p rest ih =>
    simp only [NodupKeys, dkeys, List.map_cons, List.nodup_cons] at hnd
    by_cases hp : p.1 = k
    · simp only [dset, hp, if_true, NodupKeys, dkeys, List.map_cons, List.nodup_cons]
      exact ⟨hp ▸ hnd.1, hnd.2⟩
    · simp only [dset, hp, if_false, NodupKeys, dkeys, List.map_cons, List.nodup_cons]
      refine ⟨?_, ih hnd.2⟩
      intro hmem
      rcases dkeys_dset_subset rest k v p.1 hmem with h | h
      · exact hp h
      · exact hnd.1 h

theorem dkeys_dpop_sublist {α : Type} (d : List (String × α)) (k : String) :
    List.Sublist (dkeys (dpop d k)) (dkeys d) := by
  induction d with
  | nil => simp [dpop, dkeys]
  | cons p rest ih =>
    by_cases hp : p.1 = k
    · simp only [dpop, hp, if_true, dkeys, List.map_cons]
      exact List.Sublist.cons _ ih
    · simp only [dpop, hp, if_false, dkeys, List.map_cons]
      exact List.Sublist.cons₂ _ ih

theorem nodup_dpop {α : Type} {d : List (String × α)} (hnd : NodupKeys d)
    (k : String) : NodupKeys (dpop d k) :=
  List.Nodup.sublist (dkeys_dpop_sublist d k) hnd

theorem nodup_dupdate {α : Type} {d : List (String × α)} (hnd : NodupKeys d)
    (l : List (String × α)) : NodupKeys (dupdate d l) := by
  induction l generalizing d with
  | nil => exact hnd
  | cons p rest ih => exact ih (nodup_dset hnd p.1 p.2)

/-! ### Composition classifiers

Source: `magnetic_check` and `metal_check` in `input_sets.py`.  A structure
is embedded as the list of atomic numbers of its species. -/

/-- `range(23, 29) + range(44, 47) + range(58, 72) + range(91, 119)`. -/
def magnetic_elements : List Nat :=
  List.range' 23 6 ++ List.range' 44 3 ++ List.range' 58 14 ++ List.range' 91 28

/-- True iff the structure contains any magnetic element. -/
def magnetic_check (struct : List Nat) : Bool :=
  struct.any (fun z => magnetic_elements.contains z)

/-- `range(3, 5) + range(11, 14) + range(19, 32) + range(37, 51) +
range(55, 86) + range(87, 119)`. -/
def metal_elements : List Nat :=
  List.range' 3 2 ++ List.range' 11 3 ++ List.range' 19 13 ++ List.range' 37 14 ++
    List.range' 55 31 ++ List.range' 87 32

/-- True iff every element of the structure is a metal element. -/
def metal_check (struct : List Nat) : Bool :=
  struct.all (fun z => metal_elements.contains z)

/-! ### Python value helpers -/

/-- Python truthiness of a flat value. -/
def FVal.truthy : FVal → Bool
  | .pynone => false
  | .int n => n != 0
  | .float m _ => m != 0
  | .str s => s != ""
  | .bool b => b
  | .intList l => !l.isEmpty
  | .intListList l => !l.isEmpty

/-- Python truthiness of a dict value (a dict is truthy iff nonempty). -/
def Val.truthy : Val → Bool
  | .flat v => v.truthy
  | .group g => !g.isEmpty

/-- Python `a or b` where `a` and `b` come from `dict.get(..., None)`. -/
def pyOr (a b : Option Val) : Option Val :=
  match a with
  | some v => if v.truthy then some v else b
  | none => b

/-- Python `v == m` for an integer literal `m` (numeric cross-type
equality: `True == 1`, `-5.0 == -5`). -/
def pyEqInt : Val → Int → Bool
  | .flat (.int n), m => n == m
  | .flat (.bool b), m => (if b then (1 : Int) else 0) == m
  | .flat (.float x e), m => x == m * (10 : Int) ^ e
  | _, _ => false

/-- ASCII lower-casing of one character (structural, so that proofs can
evaluate it). -/
def charToLower (c : Char) : Char :=
  match c with
  | 'A' => 'a' | 'B' => 'b' | 'C' => 'c' | 'D' => 'd' | 'E' => 'e' | 'F' => 'f'
  | 'G' => 'g' | 'H' => 'h' | 'I' => 'i' | 'J' => 'j' | 'K' => 'k' | 'L' => 'l'
  | 'M' => 'm' | 'N' => 'n' | 'O' => 'o' | 'P' => 'p' | 'Q' => 'q' | 'R' => 'r'
  | 'S' => 's' | 'T' => 't' | 'U' => 'u' | 'V' => 'v' | 'W' => 'w' | 'X' => 'x'
  | 'Y' => 'y' | 'Z' => 'z' | other => other

/-- Python `s.lower()` for the ASCII keys used here. -/
def strLower (s : String) : String := ⟨s.data.map charToLower⟩

/-- `pat` is a prefix of `s` (over character lists). -/
def isPrefixList : List Char → List Char → Bool
  | [], _ => true
  | _ :: _, [] => false
  | p :: ps, c :: cs => p = c && isPrefixList ps cs

/-- `pat` occurs somewhere in `s` (over character lists). -/
def occursList (pat : List Char) : List Char → Bool
  | [] => isPrefixList pat []
  | c :: cs => isPrefixList pat (c :: cs) || occursList pat cs

/-- Substring test used by Python `in` on strings. -/
def strContains (s pat : String) : Bool := occursList pat.data s.data

/-- Python `k not in v` where `v` may be `None` (raises `TypeError`), a
dict, a string, a list, or a non-container flat value (raises
`TypeError`). -/
def pyNotIn (k : String) : Option Val → Except PyError Bool
  | some (.group g) => .ok (!(dmem g k))
  | some (.flat (.str s)) => .ok (!(strContains s k))
  | some (.flat (.intList _)) => .ok true
  | some (.flat (.intListList _)) => .ok true
  | some (.flat _) => .error .typeError
  | none => .error .typeError

/-- `g.get(ff)` inside the override-group loops (defaults to `None`). -/
def fget (g : FDict) (k : String) : FVal := (dget? g k).getD .pynone

/-- `uis[key]` / `uis.get(key)` for nested-value dicts. -/
def vget (d : VDict) (k : String) : Val := (dget? d k).getD (.flat .pynone)

/-- Shorthand: flat int value. -/
def vi (n : Int) : Val := .flat (.int n)

/-- Shorthand: flat decimal float value `m * 10 ^ (-(e : Int))`. -/
def vf (m : Int) (e : Nat) : Val := .flat (.float m e)

/-- Shorthand: flat string value. -/
def vs (s : String) : Val := .flat (.str s)

/-- Shorthand: flat boolean value. -/
def vb (b : Bool) : Val := .flat (.bool b)

/-! ### Settings bundles -/

/-- The `KPOINTS` namespace of a configuration: either the density-form
dict from the base template or an explicit `Kpoints(kpts=...)` mesh
object.  The two forms are the source's two mutually exclusive sampling
representations (a plain dict versus a pymatgen `Kpoints` object). -/
inductive KPts where
  | dict (d : FDict)
  | kpoints (kpts : FVal)
deriving DecidableEq, Repr

/-- The base template loaded by `_load_yaml_config("MPRelaxSet")`: an
external, read-only bundle with `INCAR`, `KPOINTS` and `POTCAR`
namespaces plus a functional tag. -/
structure BaseConfig where
  incar : VDict
  kpoints : FDict
  potcar : List (String × String)
  functional : String
deriving DecidableEq, Repr

/-- A resolved settings bundle (`new_config` in the source). -/
structure Config where
  incar : VDict
  kpoints : KPts
  potcar : List (String × String)
  functional : String
deriving DecidableEq, Repr

instance : Inhabited Config := ⟨⟨[], .dict [], [], ""⟩⟩

/-- Source: module-level `POTCAR_UPDATES`. -/
def POTCAR_UPDATES : List (String × String) :=
  [("Cu", "Cu"), ("Mo", "Mo_sv"), ("Nb", "Nb_sv"), ("Ti", "Ti_sv"), ("V", "V_sv")]

/-- `CONFIG['KPOINTS'].update({'grid_density': density})` followed by
`CONFIG['KPOINTS'].pop('reciprocal_density')` (the order used by every
profile class body). -/
def classKpoints (base : BaseConfig) (density : Int) : Except PyError FDict :=
  dpopE (dset base.kpoints "grid_density" (.int density)) "reciprocal_density"

/-- `RelaxSet` class-body INCAR updates (lines 83-96). -/
def relaxIncarUpdates : VDict :=
  [("EDIFF_PER_ATOM", vf 1 7), ("ISMEAR", vi 1), ("SIGMA", vf 2 1), ("LREAL", vb false),
   ("PREC", vs "Accurate"), ("ALGO", vs "NORMAL"), ("LORBIT", vi 11), ("LWAVE", vb false),
   ("LCHARG", vb false), ("ISIF", vi 3), ("ICHARG", vi 2), ("ENCUT", vi 520)]

/-- `RelaxSet.CONFIG`: pop `ENCUT` (raising if absent), set the k-point
density to 8000, pop `reciprocal_density`, apply the INCAR updates, reset
the potentials. -/
def classConfigRelax (base : BaseConfig) : Except PyError Config :=
  match dpopE base.incar "ENCUT", classKpoints base 8000 with
  | .ok incar, .ok kp =>
      .ok { incar := dupdate incar relaxIncarUpdates, kpoints := .dict kp,
            potcar := dupdate base.potcar POTCAR_UPDATES, functional := "PBE" }
  | .error e, _ => .error e
  | _, .error e => .error e

/-- `StaticSet` class-body INCAR updates (lines 334-350). -/
def staticIncarUpdates : VDict :=
  [("EDIFF_PER_ATOM", vf 1 6), ("ENCUT", vi 520), ("ISMEAR", vi (-5)), ("NSW", vi 0),
   ("IBRION", vi (-1)), ("LREAL", vb false), ("ALGO", vs "NORMAL"), ("LAECHG", vb true),
   ("LCHARG", vb true), ("LWAVE", vb false), ("LORBIT", vi 11), ("LVHAR", vb true),
   ("ICHARG", vi 2), ("NEDOS", vi 5001)]

/-- `StaticSet.CONFIG`. -/
def classConfigStatic (base : BaseConfig) : Except PyError Config :=
  match classKpoints base 8000 with
  | .ok kp =>
      .ok { incar := dupdate base.incar staticIncarUpdates, kpoints := .dict kp,
            potcar := dupdate base.potcar POTCAR_UPDATES, functional := "PBE" }
  | .error e => .error e

/-- `ForceConstantsSet` class-body INCAR updates (lines 249-264). -/
def fcIncarUpdates : VDict :=
  [("EDIFF", vf 5 7), ("ISMEAR", vi 1), ("SIGMA", vf 2 1), ("LREAL", vb false),
   ("LORBIT", vi 11), ("ISIF", vi 2), ("IBRION", vi 6), ("POTIM", vf 15 3),
   ("NFREE", vi 2), ("NSW", vi 1), ("PREC", vs "Accurate"), ("ALGO", vs "Fast"),
   ("SYMPREC", vf 1 4), ("ICHARG", vi 2)]

/-- `ForceConstantsSet.CONFIG`: k-points first (lines 244-247), then the
`ENCUT` pop (line 248), then the INCAR updates. -/
def classConfigFC (base : BaseConfig) : Except PyError Config :=
  match classKpoints base 8000, dpopE base.incar "ENCUT" with
  | .ok kp, .ok incar =>
      .ok { incar := dupdate incar fcIncarUpdates, kpoints := .dict kp,
            potcar := dupdate base.potcar POTCAR_UPDATES, functional := "PBE" }
  | .error e, _ => .error e
  | _, .error e => .error e

/-- `BornChargeSet` class-body INCAR updates (lines 500-519). -/
def bornIncarUpdates : VDict :=
  [("LEPSILON", vb true), ("NCORE", vi 1), ("LRPA", vb false), ("EDIFF_PER_ATOM", vf 1 6),
   ("ISMEAR", vi 0), ("NSW", vi 0), ("LORBIT", vi 11), ("IBRION", vi (-1)),
   ("LREAL", vb false), ("ALGO", vs "NORMAL"), ("LCHARG", vb false), ("LWAVE", vb false),
   ("ICHARG", vi 2), ("PREC", vs "High")]

/-- `BornChargeSet.CONFIG`. -/
def classConfigBorn (base : BaseConfig) : Except PyError Config :=
  match classKpoints base 8000 with
  | .ok kp =>
      .ok { incar := dupdate base.incar bornIncarUpdates, kpoints := .dict kp,
            potcar := dupdate base.potcar POTCAR_UPDATES, functional := "PBE" }
  | .error e => .error e

/-- `ElasticSet` class-body INCAR (lines 612-631): a full replacement of
the base INCAR, not an update. -/
def elasticIncar : VDict :=
  [("EDIFF", vf 1 6), ("ISMEAR", vi (-5)), ("IBRION", vi 2), ("LREAL", vb false),
   ("ALGO", vs "NORMAL"), ("LAECHG", vb true), ("LCHARG", vb true), ("LWAVE", vb false),
   ("LORBIT", vi 11), ("LVHAR", vb true), ("ICHARG", vi 0), ("NSW", vi 99),
   ("ISPIN", vi 2), ("ISIF", vi 2), ("PREC", vs "High")]

/-- `ElasticSet.CONFIG`. -/
def classConfigElastic (base : BaseConfig) : Except PyError Config :=
  match classKpoints base 8000 with
  | .ok kp =>
      .ok { incar := elasticIncar, kpoints := .dict kp,
            potcar := dupdate base.potcar POTCAR_UPDATES, functional := "PBE" }
  | .error e => .error e

/-! ### Shared resolution steps -/

/-- `uis['ISPIN'] == 1` (with Python numeric cross-type equality; the key
is always present when the source evaluates this). -/
def ispinIsOne (uis : VDict) : Bool :=
  match dget? uis "ISPIN" with
  | some v => pyEqInt v 1
  | none => false

/-- The `'ISPIN' not in uis` default block: spin-polarized for magnetic
structures, unpolarized otherwise. -/
def spinUis (struct : List Nat) (uis : VDict) : VDict :=
  if dmem uis "ISPIN" then uis
  else if magnetic_check struct then dset uis "ISPIN" (vi 2)
  else dset uis "ISPIN" (vi 1)

/-- The spin-polarization default and moment-key block shared verbatim by
every profile.  Mirrors:

    if 'ISPIN' not in uis: ...magnetic_check...
    if 'magmom' in uis:
        if 'MAGMOM' in new_config['INCAR']: new_config['INCAR'].pop('MAGMOM')
    elif uis['ISPIN']==1:
        if 'MAGMON' in uis.keys(): uis.pop['MAGMOM']
        if 'MAGMON' in new_config['INCAR']: new_config['INCAR'].pop['MAGMOM']

The two `elif` lines subscript the bound method `pop` (`pop['MAGMOM']`),
which raises `TypeError` at runtime whenever the misspelled key
`'MAGMON'` is actually present. -/
def spinMagmomStep (struct : List Nat) (uis incar : VDict) :
    Except PyError (VDict × VDict) :=
  if dmem (spinUis struct uis) "magmom" then
    if dmem incar "MAGMOM" then .ok (spinUis struct uis, dpop incar "MAGMOM")
    else .ok (spinUis struct uis, incar)
  else if ispinIsOne (spinUis struct uis) then
    if dmem (spinUis struct uis) "MAGMON" then .error .typeError
    else if dmem incar "MAGMON" then .error .typeError
    else .ok (spinUis struct uis, incar)
  else .ok (spinUis struct uis, incar)

/-- One iteration of the override-group loop shared by the profiles:

    if ff.lower()=='prec': drop ENCUT, set ff
    elif ff=='grid_density': KPOINTS.update (raises on a Kpoints object)
    elif ff=='k_mesh': KPOINTS = Kpoints(kpts=value)
    else: INCAR.update({ff: value}) -/
def applyGroupEntry (cfg : Config) (g : FDict) (ff : String) : Except PyError Config :=
  if strLower ff = "prec" then
    let incar := if dmem cfg.incar "ENCUT" then dpop cfg.incar "ENCUT" else cfg.incar
    .ok { cfg with incar := dset incar ff (.flat (fget g ff)) }
  else if ff = "grid_density" then
    match cfg.kpoints with
    | .dict d => .ok { cfg with kpoints := .dict (dset d ff (fget g ff)) }
    | .kpoints _ => .error .attributeError
  else if ff = "k_mesh" then
    .ok { cfg with kpoints := .kpoints (fget g ff) }
  else
    .ok { cfg with incar := dset cfg.incar ff (.flat (fget g ff)) }

/-- `for ff in new_vasp_settings:` over the listed keys, always reading
the value through `new_vasp_settings.get(ff)`. -/
def applyGroupEntries (cfg : Config) (g : FDict) : List (String × FVal) → Except PyError Config
  | [] => .ok cfg
  | p :: rest =>
    match applyGroupEntry cfg g p.1 with
    | .ok next => applyGroupEntries next g rest
    | .error e => .error e

/-- Apply a whole override group. -/
def applyGroup (cfg : Config) (g : FDict) : Except PyError Config :=
  applyGroupEntries cfg g g

/-- Iterating a truthy non-dict group value (`for ff in 5`, `for ff in
'abc'` followed by `.get`) aborts with a runtime type/attribute error; we
collapse both to `TypeError`. -/
def applyGroupVal (cfg : Config) : Val → Except PyError Config
  | .group g => applyGroup cfg g
  | .flat _ => .error .typeError

/-- `if new_vasp_settings:` followed by the group loop. -/
def applyGroupOpt (cfg : Config) : Option Val → Except PyError Config
  | some v => if v.truthy then applyGroupVal cfg v else .ok cfg
  | none => .ok cfg

/-- `settings.get(name, None) or uis.get(name, None)`. -/
def resolvedGroup (settings : SettingsDict) (uis : VDict) (name : String) : Option Val :=
  pyOr ((dget? settings name).map Val.group) (dget? uis name)

/-- `pot = kwargs.get('user_potcar_functional', None); if pot: ...`. -/
def applyPot (cfg : Config) : Option String → Config
  | some p => if p ≠ "" then { cfg with functional := p } else cfg
  | none => cfg

/-- The skip set `{'NELM', 'EDIFF', 'NEDOS', 'KPOINT_BSE'}` of the
filtered user-override loop in `BornChargeSet` and `ElasticSet`. -/
def uisSkipKeys : List String := ["NELM", "EDIFF", "NEDOS", "KPOINT_BSE"]

/-- One iteration of the filtered user-override loop of `BornChargeSet`
(lines 560-570) and `ElasticSet` (lines 670-680):

    if key == 'ENCUT': continue
    if key not in INCAR:
        if key in {'NELM', 'EDIFF', 'NEDOS', 'KPOINT_BSE'}: continue
        INCAR[key] = uis[key]
    elif key == 'ISPIN': INCAR[key] = uis[key]
    elif key == 'ISMEAR': INCAR[key] = uis[key]
    elif key == 'SIGMA': INCAR[key] = uis[key] -/
def filteredUisStep (incar uis : VDict) (key : String) : VDict :=
  if key = "ENCUT" then incar
  else if dmem incar key = false then
    (if key ∈ uisSkipKeys then incar else dset incar key (vget uis key))
  else if key = "ISPIN" then dset incar key (vget uis key)
  else if key = "ISMEAR" then dset incar key (vget uis key)
  else if key = "SIGMA" then dset incar key (vget uis key)
  else incar

/-- `for key in uis.keys():` over the listed keys. -/
def filteredUisSteps (incar uis : VDict) : List (String × Val) → VDict
  | [] => incar
  | p :: rest => filteredUisSteps (filteredUisStep incar uis p.1) uis rest

/-- The whole filtered user-override loop. -/
def filteredUisApply (incar uis : VDict) : VDict := filteredUisSteps incar uis uis

/-- The `SIGMA`/`ISMEAR` cleanup shared by `BornChargeSet` (lines
572-574) and `ElasticSet` (lines 691-693). -/
def sigmaIsmearPop (incar : VDict) : VDict :=
  if dmem incar "SIGMA" && dmem incar "ISMEAR" then
    (match dget? incar "ISMEAR" with
      | some v => if pyEqInt v (-5) then dpop incar "SIGMA" else incar
      | none => incar)
  else incar

/-! ### Profile constructors -/

/-- Arguments of `RelaxSet.__init__` that the resolution reads:
`volume_relax`, `isif`, `a_kwargs.get('settings', {})`,
`kwargs.get('user_incar_settings', {})` and
`kwargs.get('user_potcar_functional', None)`. -/
structure RelaxArgs where
  volume_relax : Bool := false
  isif : Option Int := none
  settings : SettingsDict := []
  uis : VDict := []
  pot : Option String := none
deriving DecidableEq, Repr

/-- Arguments shared by the other profile constructors. -/
structure ProfArgs where
  settings : SettingsDict := []
  uis : VDict := []
  pot : Option String := none
deriving DecidableEq, Repr

/-- Arguments of `ElasticSet.__init__` (it additionally reads
`kwargs.get('user_kpoints_settings', {})`). -/
structure ElasticArgs where
  settings : SettingsDict := []
  uis : VDict := []
  ukps : FDict := []
  pot : Option String := none
deriving DecidableEq, Repr

/-- `no_position_relax = self.isif is None or self.isif > 4` (line 111). -/
def relaxNoPositionRelax : Option Int → Bool
  | none => true
  | some n => decide (4 < n)

/-- The `EDIFFG` removal from the flat user overrides (lines 112-115). -/
def relaxEdiffgUis (args : RelaxArgs) : VDict :=
  if args.volume_relax || relaxNoPositionRelax args.isif then
    (if dmem args.uis "EDIFFG" then dpop args.uis "EDIFFG" else args.uis)
  else args.uis

/-- The `EDIFFG` removal from every nested settings group (lines
117-123; with well-typed groups the `try`/`except` never fires). -/
def relaxEdiffgSettings (args : RelaxArgs) : SettingsDict :=
  if args.volume_relax || relaxNoPositionRelax args.isif then
    args.settings.map (fun p => (p.1, if dmem p.2 "EDIFFG" then dpop p.2 "EDIFFG" else p.2))
  else args.settings

/-- The ISIF forcing on the flat overrides (lines 128-131): `ISIF=7` for
volume-only relaxation, then the explicit `isif` when given. -/
def relaxIsifUis (args : RelaxArgs) : VDict :=
  match args.isif with
  | some n =>
    dset (if args.volume_relax then dset (relaxEdiffgUis args) "ISIF" (vi 7)
          else relaxEdiffgUis args) "ISIF" (vi n)
  | none =>
    if args.volume_relax then dset (relaxEdiffgUis args) "ISIF" (vi 7)
    else relaxEdiffgUis args

/-- `RelaxSet.__init__` after the spin/moment block: the
`Relax_settings` override group, the final flat-override update and the
potential functional override. -/
def relaxAfterSpin (args : RelaxArgs) (cfg0 : Config) (u i : VDict) :
    Except PyError Config :=
  match applyGroupOpt { cfg0 with incar := i }
      (resolvedGroup (relaxEdiffgSettings args) u "Relax_settings") with
  | .error e => .error e
  | .ok cfg2 => .ok (applyPot { cfg2 with incar := dupdate cfg2.incar u } args.pot)

/-- `RelaxSet.__init__` (lines 101-166): the mutual-exclusion guard, the
`EDIFFG` removal, the ISIF forcing, the spin/moment block, the
`Relax_settings` override group and the final flat-override update. -/
def relaxResolve (base : BaseConfig) (struct : List Nat) (args : RelaxArgs) :
    Except PyError Config :=
  if args.volume_relax && args.isif.isSome then
    .error (.valueError "isif cannot have a value while volume_relax is True.")
  else
    match classConfigRelax base with
    | .error e => .error e
    | .ok cfg0 =>
      match spinMagmomStep struct (relaxIsifUis args) cfg0.incar with
      | .error e => .error e
      | .ok (u, i) => relaxAfterSpin args cfg0 u i

/-- `uis['ISIF'] = isif` (line 368). -/
def staticUis (isif : Int) (uis : VDict) : VDict := dset uis "ISIF" (vi isif)

/-- `StaticSet.__init__` after the spin/moment block: the
`Static_settings` override group, the final flat-override update and the
potential functional override. -/
def staticAfterSpin (args : ProfArgs) (cfg0 : Config) (u i : VDict) :
    Except PyError Config :=
  match applyGroupOpt { cfg0 with incar := i }
      (resolvedGroup args.settings u "Static_settings") with
  | .error e => .error e
  | .ok cfg2 => .ok (applyPot { cfg2 with incar := dupdate cfg2.incar u } args.pot)

/-- `StaticSet.__init__` (lines 355-405): force `ISIF`, spin/moment
block, `Static_settings` override group, final flat-override update. -/
def staticResolve (base : BaseConfig) (struct : List Nat) (isif : Int) (args : ProfArgs) :
    Except PyError Config :=
  match classConfigStatic base with
  | .error e => .error e
  | .ok cfg0 =>
    match spinMagmomStep struct (staticUis isif args.uis) cfg0.incar with
    | .error e => .error e
    | .ok (u, i) => staticAfterSpin args cfg0 u i

/-- `ForceConstantsSet.__init__` after the spin/moment block: the flat
overrides merged first, then the `Forceconstant_settings` group — or,
when the group is absent or falsy, the default `Kpoints(kpts=[[3,3,3],])`
mesh. -/
def fcAfterSpin (args : ProfArgs) (cfg0 : Config) (u i : VDict) :
    Except PyError Config :=
  match resolvedGroup args.settings u "Forceconstant_settings" with
  | some v =>
    if v.truthy then
      (match applyGroupVal { cfg0 with incar := dupdate i u } v with
        | .error e => .error e
        | .ok cfg2 => .ok (applyPot cfg2 args.pot))
    else
      .ok (applyPot
        { cfg0 with incar := dupdate i u, kpoints := .kpoints (.intListList [[3, 3, 3]]) }
        args.pot)
  | none =>
    .ok (applyPot
      { cfg0 with incar := dupdate i u, kpoints := .kpoints (.intListList [[3, 3, 3]]) }
      args.pot)

/-- `ForceConstantsSet.__init__` (lines 269-321). -/
def fcResolve (base : BaseConfig) (struct : List Nat) (args : ProfArgs) :
    Except PyError Config :=
  match classConfigFC base with
  | .error e => .error e
  | .ok cfg0 =>
    match spinMagmomStep struct args.uis cfg0.incar with
    | .error e => .error e
    | .ok (u, i) => fcAfterSpin args cfg0 u i

/-- The `LCALCEPS`/`LEPSILON` exchange of `BornChargeSet` (lines
543-545). -/
def bornLcalcepsIncar (uis incar0 : VDict) : VDict :=
  if dmem uis "LCALCEPS" then
    (if dmem incar0 "LEPSILON" then dpop incar0 "LEPSILON" else incar0)
  else incar0

/-- `BornChargeSet.__init__` after the spin/moment block: the filtered
user-override loop, the `SIGMA`/`ISMEAR` cleanup and the
`Born_settings` override group. -/
def bornAfterSpin (args : ProfArgs) (cfg0 : Config) (u i : VDict) :
    Except PyError Config :=
  match applyGroupOpt { cfg0 with incar := sigmaIsmearPop (filteredUisApply i u) }
      (resolvedGroup args.settings u "Born_settings") with
  | .error e => .error e
  | .ok cfg2 => .ok (applyPot cfg2 args.pot)

/-- `BornChargeSet.__init__` (lines 524-596).  (The `isif` argument is
stored on `self` and never used.) -/
def bornResolve (base : BaseConfig) (struct : List Nat) (args : ProfArgs) :
    Except PyError Config :=
  match classConfigBorn base with
  | .error e => .error e
  | .ok cfg0 =>
    match spinMagmomStep struct args.uis (bornLcalcepsIncar args.uis cfg0.incar) with
    | .error e => .error e
    | .ok (u, i) => bornAfterSpin args cfg0 u i

/-- The composition-dependent default sampling density of `ElasticSet`
(lines 642-645): 15625 for an all-metallic structure, 8000 otherwise,
overridden by a truthy `user_kpoints_settings['grid_density']`.  The
source computes this value and then never writes it into the bundle. -/
def elasticDefaultDensity (struct : List Nat) (ukps : FDict) : FVal :=
  let gd : FVal := if metal_check struct then .int 15625 else .int 8000
  match dget? ukps "grid_density" with
  | some v => if v.truthy then v else gd
  | none => gd

/-- `ElasticSet.__init__` after the spin/moment block: the filtered
user-override loop, the `SIGMA`/`ISMEAR` cleanup, then `'grid_density'
not in new_vasp_settings` (which raises `TypeError` when the
`Elastic_settings` group is absent, i.e. `None`), the `[[31,31,31]]`
mesh replacement and the group loop. -/
def elasticAfterSpin (args : ElasticArgs) (cfg0 : Config) (u i : VDict) :
    Except PyError Config :=
  match pyNotIn "grid_density" (resolvedGroup args.settings u "Elastic_settings") with
  | .error e => .error e
  | .ok noDensity =>
    match applyGroupOpt
        (if noDensity then
          { cfg0 with
              incar := sigmaIsmearPop (filteredUisApply i u),
              kpoints := .kpoints (.intListList [[31, 31, 31]]) }
         else { cfg0 with incar := sigmaIsmearPop (filteredUisApply i u) })
        (resolvedGroup args.settings u "Elastic_settings") with
    | .error e => .error e
    | .ok cfg3 => .ok (applyPot cfg3 args.pot)

/-- `ElasticSet.__init__` (lines 636-721), including the dead
default-density computation (bound and never used, as in the source). -/
def elasticResolve (base : BaseConfig) (struct : List Nat) (args : ElasticArgs) :
    Except PyError Config :=
  match classConfigElastic base with
  | .error e => .error e
  | .ok cfg0 =>
    let _gd := elasticDefaultDensity struct args.ukps
    match spinMagmomStep struct args.uis cfg0.incar with
    | .error e => .error e
    | .ok (u, i) => elasticAfterSpin args cfg0 u i

/-- Modelled from the spec: a representative entry of the external Base
Template Registry (the `MPRelaxSet` bundle loaded by
`_load_yaml_config`, which lives in the pymatgen library, outside this
repository).  It carries the keys the profile class bodies rely on
(`ENCUT`, `reciprocal_density`) and a per-element `MAGMOM` entry. -/
def mpBase : BaseConfig where
  incar :=
    [("ALGO", vs "Fast"), ("EDIFF_PER_ATOM", vf 5 5), ("ENCUT", vi 520),
     ("IBRION", vi 2), ("ISIF", vi 3), ("ISMEAR", vi (-5)), ("ISPIN", vi 2),
     ("LORBIT", vi 11), ("LREAL", vs "Auto"), ("LWAVE", vb false),
     ("MAGMOM", vs "per-element-defaults"), ("NELM", vi 100), ("NSW", vi 99),
     ("PREC", vs "Accurate"), ("SIGMA", vf 5 2)]
  kpoints := [("reciprocal_density", .int 64)]
  potcar := [("Cu", "Cu_pv"), ("Fe", "Fe_pv"), ("Mo", "Mo_pv"), ("Nb", "Nb_pv"),
             ("Si", "Si"), ("Ti", "Ti_pv"), ("V", "V_pv")]
  functional := "PBE"

/-! ### Helpers for stating results -/

/-- Extract the bundle from a successful resolution (defaulting on
error). -/
def getOk (r : Except PyError Config) : Config :=
  match r with
  | .ok c => c
  | .error _ => default

/-- Python `==` on two dicts: same key set and equal values per key
(insertion order is irrelevant to Python dict equality). -/
def dictEquivB (d1 d2 : VDict) : Bool :=
  d1.all (fun p => decide (dget? d2 p.1 = some p.2)) &&
    d2.all (fun p => decide (dget? d1 p.1 = some p.2))

theorem dictEquivB_of_ext {d1 d2 : VDict} (h1 : NodupKeys d1) (h2 : NodupKeys d2)
    (h : ∀ k, dget? d1 k = dget? d2 k) : dictEquivB d1 d2 = true := by
  unfold dictEquivB
  rw [Bool.and_eq_true]
  constructor
  · apply List.all_eq_true.mpr
    intro p hp
    have hv : dget? d1 p.1 = some p.2 := dget?_of_mem_nodup h1 (by simpa using hp)
    simp [← h p.1, hv]
  · apply List.all_eq_true.mpr
    intro p hp
    have hv : dget? d2 p.1 = some p.2 := dget?_of_mem_nodup h2 (by simpa using hp)
    simp [h p.1, hv]

theorem dmem_false_forall {α : Type} {d : List (String × α)} {k : String}
    (h : dmem d k = false) : ∀ p ∈ d, p.1 ≠ k := by
  intro p hp hk
  have : dmem d k = true :=
    (mem_dkeys_iff_dmem d k).mp (hk ▸ List.mem_map_of_mem Prod.fst hp)
  rw [h] at this
  cases this

theorem dget?_map_snd {α β : Type} (l : List (String × α)) (f : α → β) (k : String) :
    dget? (l.map (fun p => (p.1, f p.2))) k = (dget? l k).map f := by
  induction l with
  | nil => simp [dget?]
  | cons p rest ih =>
    by_cases hp : p.1 = k <;> simp [dget?, hp, ih]

/-! ### Properties of the shared resolution steps -/

theorem spinUis_dmem (struct : List Nat) (u : VDict) (k : String) (hk : k ≠ "ISPIN") :
    dmem (spinUis struct u) k = dmem u k := by
  unfold spinUis
  split
  · rfl
  · split <;> simp [dmem_dset, hk]

theorem spinUis_dget (struct : List Nat) (u : VDict) (k : String) (hk : k ≠ "ISPIN") :
    dget? (spinUis struct u) k = dget? u k := by
  unfold spinUis
  split
  · rfl
  · split <;> simp [dget?_dset, hk]

theorem spinUis_ispin_mem (struct : List Nat) (u : VDict) :
    dmem (spinUis struct u) "ISPIN" = true := by
  unfold spinUis
  split
  · assumption
  · split <;> simp [dmem_dset]

theorem spinUis_nodup {u : VDict} (hnd : NodupKeys u) (struct : List Nat) :
    NodupKeys (spinUis struct u) := by
  unfold spinUis
  split
  · exact hnd
  · split <;> exact nodup_dset hnd _ _

theorem spin_ok_uis {struct : List Nat} {u i u2 i2 : VDict}
    (h : spinMagmomStep struct u i = .ok (u2, i2)) : u2 = spinUis struct u := by
  unfold spinMagmomStep at h
  split at h
  · split at h <;> exact (congrArg Prod.fst (Except.ok.inj h)).symm
  · split at h
    · split at h
      · cases h
      · split at h
        · cases h
        · exact (congrArg Prod.fst (Except.ok.inj h)).symm
    · exact (congrArg Prod.fst (Except.ok.inj h)).symm

theorem spin_ok_incar {struct : List Nat} {u i u2 i2 : VDict}
    (h : spinMagmomStep struct u i = .ok (u2, i2)) :
    (dmem (spinUis struct u) "magmom" = true ∧
      i2 = (if dmem i "MAGMOM" then dpop i "MAGMOM" else i)) ∨
    (dmem (spinUis struct u) "magmom" = false ∧ i2 = i) := by
  unfold spinMagmomStep at h
  split at h
  · rename_i hm
    left
    refine ⟨hm, ?_⟩
    split at h <;> rename_i hmm <;> simp [hmm] <;>
      exact (congrArg Prod.snd (Except.ok.inj h)).symm
  · rename_i hm
    right
    refine ⟨Bool.eq_false_iff.mpr hm, ?_⟩
    split at h
    · split at h
      · cases h
      · split at h
        · cases h
        · exact (congrArg Prod.snd (Except.ok.inj h)).symm
    · exact (congrArg Prod.snd (Except.ok.inj h)).symm

theorem spin_ok_magmon {struct : List Nat} {u i u2 i2 : VDict}
    (h : spinMagmomStep struct u i = .ok (u2, i2))
    (hm : dmem (spinUis struct u) "magmom" = false)
    (h1 : ispinIsOne (spinUis struct u) = true) :
    dmem (spinUis struct u) "MAGMON" = false ∧ dmem i "MAGMON" = false := by
  unfold spinMagmomStep at h
  rw [if_neg (by simp [hm]), if_pos h1] at h
  split at h
  · cases h
  · split at h
    · cases h
    · rename_i hu hi
      exact ⟨by simpa using hu, by simpa using hi⟩

theorem spin_eval_magmom {struct : List Nat} {u : VDict} (i : VDict)
    (hm : dmem (spinUis struct u) "magmom" = true) :
    spinMagmomStep struct u i =
      .ok (spinUis struct u, if dmem i "MAGMOM" then dpop i "MAGMOM" else i) := by
  unfold spinMagmomStep
  rw [if_pos hm]
  split <;> rename_i hmm <;> simp [hmm]

theorem spin_eval_not1 {struct : List Nat} {u : VDict} (i : VDict)
    (hm : dmem (spinUis struct u) "magmom" = false)
    (h1 : ispinIsOne (spinUis struct u) = false) :
    spinMagmomStep struct u i = .ok (spinUis struct u, i) := by
  unfold spinMagmomStep
  rw [if_neg (by simp [hm]), if_neg (by simp [h1])]

theorem spin_eval_one {struct : List Nat} {u : VDict} (i : VDict)
    (hm : dmem (spinUis struct u) "magmom" = false)
    (h1 : ispinIsOne (spinUis struct u) = true)
    (hu : dmem (spinUis struct u) "MAGMON" = false)
    (hi : dmem i "MAGMON" = false) :
    spinMagmomStep struct u i = .ok (spinUis struct u, i) := by
  unfold spinMagmomStep
  rw [if_neg (by simp [hm]), if_pos h1, if_neg (by simp [hu]), if_neg (by simp [hi])]

theorem spin_error {struct : List Nat} {u i : VDict} {e : PyError}
    (h : spinMagmomStep struct u i = .error e) : e = .typeError := by
  unfold spinMagmomStep at h
  split at h
  · split at h <;> cases h
  · split at h
    · split at h
      · exact (Except.error.inj h).symm
      · split at h
        · exact (Except.error.inj h).symm
        · cases h
    · cases h

theorem dpopE_error {α : Type} {d : List (String × α)} {k : String} {e : PyError}
    (h : dpopE d k = .error e) : e = .keyError := by
  unfold dpopE at h
  split at h
  · cases h
  · exact (Except.error.inj h).symm

theorem classKpoints_error {base : BaseConfig} {density : Int} {e : PyError}
    (h : classKpoints base density = .error e) : e = .keyError := dpopE_error h

theorem classConfigRelax_error {base : BaseConfig} {e : PyError}
    (h : classConfigRelax base = .error e) : e = .keyError := by
  unfold classConfigRelax at h
  cases hA : dpopE base.incar "ENCUT" with
  | error e1 =>
    cases hB : classKpoints base 8000 with
    | error e2 => rw [hA, hB] at h; cases h; exact dpopE_error hA
    | ok kp => rw [hA, hB] at h; cases h; exact dpopE_error hA
  | ok incar =>
    cases hB : classKpoints base 8000 with
    | error e2 => rw [hA, hB] at h; cases h; exact classKpoints_error hB
    | ok kp => rw [hA, hB] at h; cases h

theorem classConfigStatic_error {base : BaseConfig} {e : PyError}
    (h : classConfigStatic base = .error e) : e = .keyError := by
  unfold classConfigStatic at h
  cases hB : classKpoints base 8000 with
  | error e2 => rw [hB] at h; cases h; exact classKpoints_error hB
  | ok kp => rw [hB] at h; cases h

theorem classConfigFC_error {base : BaseConfig} {e : PyError}
    (h : classConfigFC base = .error e) : e = .keyError := by
  unfold classConfigFC at h
  cases hB : classKpoints base 8000 with
  | error e2 =>
    cases hA : dpopE base.incar "ENCUT" with
    | error e1 => rw [hA, hB] at h; cases h; exact classKpoints_error hB
    | ok incar => rw [hA, hB] at h; cases h; exact classKpoints_error hB
  | ok kp =>
    cases hA : dpopE base.incar "ENCUT" with
    | error e1 => rw [hA, hB] at h; cases h; exact dpopE_error hA
    | ok incar => rw [hA, hB] at h; cases h

theorem classConfigBorn_error {base : BaseConfig} {e : PyError}
    (h : classConfigBorn base = .error e) : e = .keyError := by
  unfold classConfigBorn at h
  cases hB : classKpoints base 8000 with
  | error e2 => rw [hB] at h; cases h; exact classKpoints_error hB
  | ok kp => rw [hB] at h; cases h

theorem classConfigElastic_error {base : BaseConfig} {e : PyError}
    (h : classConfigElastic base = .error e) : e = .keyError := by
  unfold classConfigElastic at h
  cases hB : classKpoints base 8000 with
  | error e2 => rw [hB] at h; cases h; exact classKpoints_error hB
  | ok kp => rw [hB] at h; cases h

theorem applyGroupEntry_error {cfg : Config} {g : FDict} {ff : String} {e : PyError}
    (h : applyGroupEntry cfg g ff = .error e) : e = .attributeError := by
  unfold applyGroupEntry at h
  split at h
  · cases h
  · split at h
    · split at h
      · cases h
      · exact (Except.error.inj h).symm
    · split at h
      · cases h
      · cases h

theorem applyGroupEntries_error {g : FDict} {e : PyError} :
    ∀ (l : List (String × FVal)) (cfg : Config),
      applyGroupEntries cfg g l = .error e → e = .attributeError := by
  intro l
  induction l with
  | nil => intro cfg h; cases h
  | cons p rest ih =>
    intro cfg h
    unfold applyGroupEntries at h
    cases hA : applyGroupEntry cfg g p.1 with
    | error e1 => rw [hA] at h; cases h; exact applyGroupEntry_error hA
    | ok next => rw [hA] at h; exact ih next h

theorem applyGroupVal_error {cfg : Config} {v : Val} {e : PyError}
    (h : applyGroupVal cfg v = .error e) :
    e = .attributeError ∨ e = .typeError := by
  cases v with
  | group g => exact Or.inl (applyGroupEntries_error g cfg h)
  | flat fv => exact Or.inr (Except.error.inj h).symm

theorem applyGroupOpt_error {cfg : Config} {o : Option Val} {e : PyError}
    (h : applyGroupOpt cfg o = .error e) :
    e = .attributeError ∨ e = .typeError := by
  cases o with
  | none => cases h
  | some v =>
    simp only [applyGroupOpt] at h
    by_cases ht : v.truthy = true
    · rw [if_pos ht] at h
      exact applyGroupVal_error h
    · rw [if_neg ht] at h
      cases h

theorem applyPot_incar (cfg : Config) (o : Option String) :
    (applyPot cfg o).incar = cfg.incar := by
  cases o with
  | none => rfl
  | some p =>
    simp only [applyPot]
    split <;> rfl

theorem applyPot_kpoints (cfg : Config) (o : Option String) :
    (applyPot cfg o).kpoints = cfg.kpoints := by
  cases o with
  | none => rfl
  | some p =>
    simp only [applyPot]
    split <;> rfl

theorem applyPot_none (cfg : Config) : applyPot cfg none = cfg := rfl

/-! ### Reduction lemmas for the profile constructors -/

theorem relaxResolve_ok {base : BaseConfig} {cfg0 : Config}
    (hA : classConfigRelax base = .ok cfg0) (struct : List Nat) {args : RelaxArgs}
    (hg : (args.volume_relax && args.isif.isSome) = false) :
    relaxResolve base struct args =
      match spinMagmomStep struct (relaxIsifUis args) cfg0.incar with
      | .error e => .error e
      | .ok (u, i) => relaxAfterSpin args cfg0 u i := by
  unfold relaxResolve
  rw [if_neg (by simp [hg]), hA]

theorem relaxResolve_ok2 {base : BaseConfig} {cfg0 : Config} {struct : List Nat}
    {args : RelaxArgs} {u i : VDict}
    (hA : classConfigRelax base = .ok cfg0)
    (hg : (args.volume_relax && args.isif.isSome) = false)
    (hB : spinMagmomStep struct (relaxIsifUis args) cfg0.incar = .ok (u, i)) :
    relaxResolve base struct args = relaxAfterSpin args cfg0 u i := by
  rw [relaxResolve_ok hA struct hg, hB]

theorem staticResolve_ok {base : BaseConfig} {cfg0 : Config}
    (hA : classConfigStatic base = .ok cfg0) (struct : List Nat) (isif : Int)
    (args : ProfArgs) :
    staticResolve base struct isif args =
      match spinMagmomStep struct (staticUis isif args.uis) cfg0.incar with
      | .error e => .error e
      | .ok (u, i) => staticAfterSpin args cfg0 u i := by
  unfold staticResolve
  rw [hA]

theorem staticResolve_ok2 {base : BaseConfig} {cfg0 : Config} {struct : List Nat}
    {isif : Int} {args : ProfArgs} {u i : VDict}
    (hA : classConfigStatic base = .ok cfg0)
    (hB : spinMagmomStep struct (staticUis isif args.uis) cfg0.incar = .ok (u, i)) :
    staticResolve base struct isif args = staticAfterSpin args cfg0 u i := by
  rw [staticResolve_ok hA struct isif args, hB]

theorem fcResolve_ok {base : BaseConfig} {cfg0 : Config}
    (hA : classConfigFC base = .ok cfg0) (struct : List Nat) (args : ProfArgs) :
    fcResolve base struct args =
      match spinMagmomStep struct args.uis cfg0.incar with
      | .error e => .error e
      | .ok (u, i) => fcAfterSpin args cfg0 u i := by
  unfold fcResolve
  rw [hA]

theorem fcResolve_ok2 {base : BaseConfig} {cfg0 : Config} {struct : List Nat}
    {args : ProfArgs} {u i : VDict}
    (hA : classConfigFC base = .ok cfg0)
    (hB : spinMagmomStep struct args.uis cfg0.incar = .ok (u, i)) :
    fcResolve base struct args = fcAfterSpin args cfg0 u i := by
  rw [fcResolve_ok hA struct args, hB]

theorem bornResolve_ok {base : BaseConfig} {cfg0 : Config}
    (hA : classConfigBorn base = .ok cfg0) (struct : List Nat) (args : ProfArgs) :
    bornResolve base struct args =
      match spinMagmomStep struct args.uis (bornLcalcepsIncar args.uis cfg0.incar) with
      | .error e => .error e
      | .ok (u, i) => bornAfterSpin args cfg0 u i := by
  unfold bornResolve
  rw [hA]

theorem bornResolve_ok2 {base : BaseConfig} {cfg0 : Config} {struct : List Nat}
    {args : ProfArgs} {u i : VDict}
    (hA : classConfigBorn base = .ok cfg0)
    (hB : spinMagmomStep struct args.uis (bornLcalcepsIncar args.uis cfg0.incar) = .ok (u, i)) :
    bornResolve base struct args = bornAfterSpin args cfg0 u i := by
  rw [bornResolve_ok hA struct args, hB]

theorem elasticResolve_ok {base : BaseConfig} {cfg0 : Config}
    (hA : classConfigElastic base = .ok cfg0) (struct : List Nat) (args : ElasticArgs) :
    elasticResolve base struct args =
      match spinMagmomStep struct args.uis cfg0.incar with
      | .error e => .error e
      | .ok (u, i) => elasticAfterSpin args cfg0 u i := by
  unfold elasticResolve
  rw [hA]

theorem elasticResolve_ok2 {base : BaseConfig} {cfg0 : Config} {struct : List Nat}
    {args : ElasticArgs} {u i : VDict}
    (hA : classConfigElastic base = .ok cfg0)
    (hB : spinMagmomStep struct args.uis cfg0.incar = .ok (u, i)) :
    elasticResolve base struct args = elasticAfterSpin args cfg0 u i := by
  rw [elasticResolve_ok hA struct args, hB]

/-! ### Claim C1 -/

/-- C1: constructing the Relaxation profile with `volume_relax=True` and
a non-`None` explicit `isif` raises the configuration-conflict error
(the guard's `ValueError`) immediately and produces no bundle, for every
base template, structure and keyword-argument set; with `isif=None` or
with `volume_relax=False` that error is never raised (any failure of the
remaining resolution surfaces as a different error class). -/
theorem claim_C1_relax_volume_isif_conflict (base : BaseConfig) (struct : List Nat)
    (args : RelaxArgs) :
    (∃ msg, relaxResolve base struct args = .error (.valueError msg)) ↔
      (args.volume_relax = true ∧ args.isif ≠ none) := by
  unfold relaxResolve
  by_cases hg : (args.volume_relax && args.isif.isSome) = true
  · rw [if_pos hg]
    simp only [Bool.and_eq_true] at hg
    constructor
    · intro _
      exact ⟨hg.1, Option.ne_none_iff_isSome.mpr hg.2⟩
    · intro _
      exact ⟨_, rfl⟩
  · rw [if_neg hg]
    constructor
    · rintro ⟨msg, h⟩
      exfalso
      split at h
      · rename_i e hA
        injection h with he
        subst he
        simpa using classConfigRelax_error hA
      · rename_i cfg0 hA
        split at h
        · rename_i e hB
          injection h with he
          subst he
          simpa using spin_error hB
        · rename_i u i hB
          unfold relaxAfterSpin at h
          split at h
          · rename_i e hC
            injection h with he
            subst he
            rcases applyGroupOpt_error hC with h2 | h2 <;> simp at h2
          · exact Except.noConfusion h
    · rintro ⟨h1, h2⟩
      exfalso
      exact hg (by simp [h1, Option.ne_none_iff_isSome.mp h2])

/-! ### Claim C3 -/

/-- C3 (evidence for the code bug): for the all-non-magnetic structure
`[14]` (silicon) with empty user overrides, the Static profile resolves
to `ISPIN = 1` but leaves the base template's `MAGMOM` entry in the
final parameters, because the removal branch tests the misspelled key
`'MAGMON'` (and would raise through `pop['MAGMOM']` if it ever
matched). -/
theorem claim_C3_static_unpolarized_magmom_left_behind :
    magnetic_check [14] = false ∧
    dmem mpBase.incar "MAGMOM" = true ∧
    staticResolve mpBase [14] 2 {} = .ok (getOk (staticResolve mpBase [14] 2 {})) ∧
    dget? (getOk (staticResolve mpBase [14] 2 {})).incar "ISPIN" = some (vi 1) ∧
    dget? (getOk (staticResolve mpBase [14] 2 {})).incar "MAGMOM" =
      some (vs "per-element-defaults") := by
  decide

/-! ### Claim C5 -/

/-- The Elastic profile run of C5's evidence: a metallic structure and an
override group without a density entry. -/
def c5args : ElasticArgs := { settings := [("Elastic_settings", [("NSW", .int 90)])] }

/-- C5 (evidence for the code bug): for the all-metallic structure `[29]`
(copper) with no sampling-density override, the metallic default 15625 is
computed (distinct from and larger than the non-metallic 8000) but never
written to the bundle: with no override group the resolution raises
`TypeError`, and with a group lacking a density entry the sampling is
replaced by the `[[31,31,31]]` mesh, so no density at all — in
particular not 15625 — appears in the output. -/
theorem claim_C5_elastic_metallic_density_never_applied :
    metal_check [29] = true ∧
    elasticDefaultDensity [29] [] = .int 15625 ∧
    elasticDefaultDensity [14] [] = .int 8000 ∧
    (8000 : Int) < 15625 ∧
    elasticResolve mpBase [29] {} = .error .typeError ∧
    elasticResolve mpBase [29] c5args = .ok (getOk (elasticResolve mpBase [29] c5args)) ∧
    (getOk (elasticResolve mpBase [29] c5args)).kpoints =
      .kpoints (.intListList [[31, 31, 31]]) := by
  decide

/-! ### Claim C2 -/

/-- The Static profile run of C2's counterexample: an override group with
a precision entry followed by a cutoff entry. -/
def c2args : ProfArgs :=
  { settings := [("Static_settings", [("PREC", .str "High"), ("ENCUT", .int 600)])] }

/-- C2 counterexample: an override group containing a precision entry and
a cutoff entry after it leaves `ENCUT = 600` in the final parameters even
though the flat user overrides contain no cutoff key, so the claim as
stated fails. -/
theorem claim_C2_counterexample :
    staticResolve mpBase [14] 2 c2args = .ok (getOk (staticResolve mpBase [14] 2 c2args)) ∧
    dmem (getOk (staticResolve mpBase [14] 2 c2args)).incar "ENCUT" = true ∧
    dget? (getOk (staticResolve mpBase [14] 2 c2args)).incar "ENCUT" = some (vi 600) := by
  decide

/-! ### Claim C7 -/

/-- First resolution of C7's counterexample: a `PREC` override group that
evicts the cutoff key. -/
def c7firstArgs : ProfArgs := { settings := [("Static_settings", [("PREC", .str "High")])] }

/-- The bundle of C7's first resolution. -/
def c7b1 : Config := getOk (staticResolve mpBase [14] 2 c7firstArgs)

/-- The bundle of C7's second resolution (first output fed back as the
flat user overrides, no override group). -/
def c7b2 : Config := getOk (staticResolve mpBase [14] 2 { uis := c7b1.incar })

/-- C7 counterexample: with the first resolution using a `PREC` override
group, feeding its full output parameters back as the flat overrides of a
second, group-free resolution does not reproduce the bundle: the second
resolution restores the base cutoff `ENCUT` that the first had evicted. -/
theorem claim_C7_counterexample :
    staticResolve mpBase [14] 2 c7firstArgs = .ok c7b1 ∧
    staticResolve mpBase [14] 2 { uis := c7b1.incar } = .ok c7b2 ∧
    dmem c7b1.incar "ENCUT" = false ∧
    dmem c7b2.incar "ENCUT" = true := by
  decide

/-! ### Claim C8 -/

/-- The Born-Charge run of C8's counterexample: a flat override for a key
(`ALGO`) the baseline already sets. -/
def c8args : ProfArgs := { uis := [("ALGO", vs "Fast")] }

/-- C8 counterexample: in the Born-Charge profile the flat user override
`ALGO = "Fast"` is silently ignored (the filtered loop overwrites
existing keys only for `ISPIN`, `ISMEAR`, `SIGMA`), so the claim that
every residual user-override key appears in the output with the
user-supplied value fails as stated. -/
theorem claim_C8_counterexample :
    bornResolve mpBase [14] c8args = .ok (getOk (bornResolve mpBase [14] c8args)) ∧
    dget? (getOk (bornResolve mpBase [14] c8args)).incar "ALGO" = some (vs "NORMAL") ∧
    ¬ dget? (getOk (bornResolve mpBase [14] c8args)).incar "ALGO" = some (vs "Fast") := by
  decide

/-! ### Claim C10 -/

/-- The Born-Charge run of C10's counterexample: flat overrides carrying
both `LCALCEPS` and `LEPSILON`. -/
def c10args : ProfArgs := { uis := [("LCALCEPS", vb true), ("LEPSILON", vb false)] }

/-- C10 counterexample: when the flat overrides contain `LCALCEPS`
together with `LEPSILON`, the baseline `LEPSILON` is popped but the
user's `LEPSILON` is then re-added by the filtered override loop, so the
final parameters do contain `LEPSILON`, contradicting the claim as
stated. -/
theorem claim_C10_counterexample :
    bornResolve mpBase [14] c10args = .ok (getOk (bornResolve mpBase [14] c10args)) ∧
    dmem (getOk (bornResolve mpBase [14] c10args)).incar "LCALCEPS" = true ∧
    dmem (getOk (bornResolve mpBase [14] c10args)).incar "LEPSILON" = true := by
  decide

/-! ### Claim C6 -/

/-- C6: for the Elastic profile an absent override group is not treated
as an empty group: whenever `'Elastic_settings'` is present neither in
the nested settings location nor among the flat user-override keys, the
group value is `None`, the membership test `'grid_density' not in
new_vasp_settings` is evaluated on it, and the resolution raises an
error instead of completing (for every base template and structure). -/
theorem claim_C6_elastic_absent_group_raises (base : BaseConfig) (struct : List Nat)
    (args : ElasticArgs)
    (hs : dmem args.settings "Elastic_settings" = false)
    (hu : dmem args.uis "Elastic_settings" = false) :
    ∃ e, elasticResolve base struct args = .error e := by
  cases hA : classConfigElastic base with
  | error e =>
    refine ⟨e, ?_⟩
    unfold elasticResolve
    rw [hA]
  | ok cfg0 =>
    cases hB : spinMagmomStep struct args.uis cfg0.incar with
    | error e =>
      refine ⟨e, ?_⟩
      rw [elasticResolve_ok hA struct args, hB]
    | ok ui =>
      obtain ⟨u, i⟩ := ui
      refine ⟨.typeError, ?_⟩
      rw [elasticResolve_ok2 hA hB]
      have hu2 : dget? u "Elastic_settings" = none := by
        rw [spin_ok_uis hB, spinUis_dget struct args.uis _ (by decide)]
        exact dget?_of_not_dmem hu
      have hres : resolvedGroup args.settings u "Elastic_settings" = none := by
        simp [resolvedGroup, pyOr, dget?_of_not_dmem hs, hu2]
      unfold elasticAfterSpin
      rw [hres]
      rfl

/-- Witness for C6 at a concrete input: copper structure, a flat
override and no `Elastic_settings` group anywhere. -/
theorem claim_C6_witness :
    ∃ e, elasticResolve mpBase [14] { uis := [("NSW", vi 1)] } = .error e :=
  claim_C6_elastic_absent_group_raises mpBase [14] { uis := [("NSW", vi 1)] }
    (by decide) (by decide)

/-! ### Claim C4 -/

theorem resolvedGroup_congr_uis {s : SettingsDict} {u1 u2 : VDict} {name : String}
    (h : dget? u1 name = dget? u2 name) :
    resolvedGroup s u1 name = resolvedGroup s u2 name := by
  unfold resolvedGroup
  rw [h]

theorem applyGroupEntry_kmesh_preserved {cfg cfg2 : Config} {g : FDict} {ff : String}
    {m : FVal} (hk : fget g "k_mesh" = m) (hc : cfg.kpoints = .kpoints m)
    (h : applyGroupEntry cfg g ff = .ok cfg2) : cfg2.kpoints = .kpoints m := by
  unfold applyGroupEntry at h
  split at h
  · injection h with he
    rw [← he]
    exact hc
  · split at h
    · rw [hc] at h
      exact Except.noConfusion h
    · split at h
      · rename_i hff
        injection h with he
        rw [← he]
        simp only [hff, hk]
      · injection h with he
        rw [← he]
        exact hc

theorem applyGroupEntries_kmesh_preserved {g : FDict} {m : FVal}
    (hk : fget g "k_mesh" = m) :
    ∀ (l : List (String × FVal)) (cfg cfg2 : Config), cfg.kpoints = .kpoints m →
      applyGroupEntries cfg g l = .ok cfg2 → cfg2.kpoints = .kpoints m := by
  intro l
  induction l with
  | nil =>
    intro cfg cfg2 hc h
    injection h with he
    rw [← he]
    exact hc
  | cons p rest ih =>
    intro cfg cfg2 hc h
    unfold applyGroupEntries at h
    cases hE : applyGroupEntry cfg g p.1 with
    | error e =>
      rw [hE] at h
      exact Except.noConfusion h
    | ok next =>
      rw [hE] at h
      exact ih next cfg2 (applyGroupEntry_kmesh_preserved hk hc hE) h

theorem applyGroupEntry_kmesh_applied {cfg cfg2 : Config} {g : FDict} {m : FVal}
    (hk : fget g "k_mesh" = m)
    (h : applyGroupEntry cfg g "k_mesh" = .ok cfg2) : cfg2.kpoints = .kpoints m := by
  unfold applyGroupEntry at h
  rw [if_neg (by decide), if_neg (by decide), if_pos rfl] at h
  injection h with he
  rw [← he]
  simp only [hk]

theorem applyGroupEntries_kmesh_found {g : FDict} {m : FVal}
    (hk : fget g "k_mesh" = m) :
    ∀ (l : List (String × FVal)) (cfg cfg2 : Config), dmem l "k_mesh" = true →
      applyGroupEntries cfg g l = .ok cfg2 → cfg2.kpoints = .kpoints m := by
  intro l
  induction l with
  | nil =>
    intro cfg cfg2 hm
    cases hm
  | cons p rest ih =>
    intro cfg cfg2 hm h
    unfold applyGroupEntries at h
    cases hE : applyGroupEntry cfg g p.1 with
    | error e =>
      rw [hE] at h
      exact Except.noConfusion h
    | ok next =>
      rw [hE] at h
      by_cases hp : p.1 = "k_mesh"
      · rw [hp] at hE
        exact applyGroupEntries_kmesh_preserved hk rest next cfg2
          (applyGroupEntry_kmesh_applied hk hE) h
      · have hm2 : dmem rest "k_mesh" = true := by
          unfold dmem at hm
          rwa [if_neg hp] at hm
        exact ih next cfg2 hm2 h

/-- C4: (i) supplying an explicit-mesh entry (`k_mesh`) in a recognized
override group makes every successful resolution return the explicit
`Kpoints` mesh exactly as supplied, with no residual density dict
(stated for the Force-Constants profile); (ii) the Force-Constants
profile invoked with no override group at all yields the
`Kpoints(kpts=[[3,3,3],])` mesh.  In both cases the sampling namespace is
the `KPts.kpoints` form, which by construction carries no density key —
mirroring the source, where the `KPOINTS` dict is replaced wholesale by
a pymatgen `Kpoints` object. -/
theorem claim_C4_kmesh_replaces_sampling :
    (∀ (base : BaseConfig) (struct : List Nat) (args : ProfArgs) (g : FDict)
        (m : FVal) (cfg : Config),
      resolvedGroup args.settings args.uis "Forceconstant_settings" = some (.group g) →
      dget? g "k_mesh" = some m →
      fcResolve base struct args = .ok cfg →
      cfg.kpoints = .kpoints m) ∧
    (∀ (base : BaseConfig) (struct : List Nat) (args : ProfArgs) (cfg : Config),
      resolvedGroup args.settings args.uis "Forceconstant_settings" = none →
      fcResolve base struct args = .ok cfg →
      cfg.kpoints = .kpoints (.intListList [[3, 3, 3]])) := by
  constructor
  · intro base struct args g m cfg hg hk hres
    cases hA : classConfigFC base with
    | error e =>
      have : fcResolve base struct args = .error e := by
        unfold fcResolve
        rw [hA]
      rw [this] at hres
      exact Except.noConfusion hres
    | ok cfg0 =>
      rw [fcResolve_ok hA struct args] at hres
      cases hB : spinMagmomStep struct args.uis cfg0.incar with
      | error e =>
        rw [hB] at hres
        exact Except.noConfusion hres
      | ok ui =>
        obtain ⟨u, i⟩ := ui
        rw [hB] at hres
        have h2 : fcAfterSpin args cfg0 u i = .ok cfg := hres
        have hg2 : resolvedGroup args.settings u "Forceconstant_settings" =
            some (.group g) := by
          rw [@resolvedGroup_congr_uis _ _ args.uis _ ?_]
          · exact hg
          · rw [spin_ok_uis hB]
            exact spinUis_dget struct args.uis _ (by decide)
        unfold fcAfterSpin at h2
        split at h2
        · rename_i v heq
          have hv : v = Val.group g := by
            have := heq.symm.trans hg2
            exact Option.some.inj this
          subst hv
          have ht : (Val.group g).truthy = true := by
            unfold Val.truthy
            cases g with
            | nil => cases hk
            | cons q rest => simp [List.isEmpty]
          rw [if_pos ht] at h2
          cases hC : applyGroupVal { cfg0 with incar := dupdate i u } (Val.group g) with
          | error e =>
            rw [hC] at h2
            exact Except.noConfusion h2
          | ok cfg2 =>
            rw [hC] at h2
            have he : applyPot cfg2 args.pot = cfg := Except.ok.inj h2
            have hC2 : applyGroupEntries { cfg0 with incar := dupdate i u } g g = .ok cfg2 := hC
            have hkf : fget g "k_mesh" = m := by
              unfold fget
              rw [hk]
              rfl
            have hmem : dmem g "k_mesh" = true := (dmem_iff_dget? g "k_mesh").mpr ⟨m, hk⟩
            have := applyGroupEntries_kmesh_found hkf g _ cfg2 hmem hC2
            rw [← he, applyPot_kpoints]
            exact this
        · rename_i heq
          rw [heq] at hg2
          exact Option.noConfusion hg2
  · intro base struct args cfg hg hres
    cases hA : classConfigFC base with
    | error e =>
      have : fcResolve base struct args = .error e := by
        unfold fcResolve
        rw [hA]
      rw [this] at hres
      exact Except.noConfusion hres
    | ok cfg0 =>
      rw [fcResolve_ok hA struct args] at hres
      cases hB : spinMagmomStep struct args.uis cfg0.incar with
      | error e =>
        rw [hB] at hres
        exact Except.noConfusion hres
      | ok ui =>
        obtain ⟨u, i⟩ := ui
        rw [hB] at hres
        have h2 : fcAfterSpin args cfg0 u i = .ok cfg := hres
        have hg2 : resolvedGroup args.settings u "Forceconstant_settings" = none := by
          rw [@resolvedGroup_congr_uis _ _ args.uis _ ?_]
          · exact hg
          · rw [spin_ok_uis hB]
            exact spinUis_dget struct args.uis _ (by decide)
        unfold fcAfterSpin at h2
        split at h2
        · rename_i v heq
          rw [heq] at hg2
          exact Option.noConfusion hg2
        · have he : applyPot
              { cfg0 with incar := dupdate i u,
                          kpoints := KPts.kpoints (.intListList [[3, 3, 3]]) }
              args.pot = cfg := Except.ok.inj h2
          rw [← he, applyPot_kpoints]

/-- Witness for C4: both conjuncts at concrete inputs — a `[[4,4,4]]`
mesh supplied through `Forceconstant_settings`, and a run with no
override group at all. -/
theorem claim_C4_witness :
    (getOk (fcResolve mpBase [14]
        { settings := [("Forceconstant_settings",
            [("k_mesh", .intListList [[4, 4, 4]])])] })).kpoints =
      .kpoints (.intListList [[4, 4, 4]]) ∧
    (getOk (fcResolve mpBase [14] {})).kpoints =
      .kpoints (.intListList [[3, 3, 3]]) := by
  constructor
  · exact claim_C4_kmesh_replaces_sampling.1 mpBase [14]
      { settings := [("Forceconstant_settings", [("k_mesh", .intListList [[4, 4, 4]])])] }
      [("k_mesh", .intListList [[4, 4, 4]])] (.intListList [[4, 4, 4]]) _
      (by decide) (by decide) (by decide)
  · exact claim_C4_kmesh_replaces_sampling.2 mpBase [14] {} _ (by decide) (by decide)

/-! ### Claim C2 -/

theorem applyGroupEntry_encut_preserved {cfg cfg2 : Config} {g : FDict} {ff : String}
    (hff : ff ≠ "ENCUT") (hc : dmem cfg.incar "ENCUT" = false)
    (h : applyGroupEntry cfg g ff = .ok cfg2) : dmem cfg2.incar "ENCUT" = false := by
  have hfe : ¬ ("ENCUT" = ff) := fun hh => hff hh.symm
  unfold applyGroupEntry at h
  split at h
  · injection h with he
    rw [← he]
    show dmem (dset _ ff (Val.flat (fget g ff))) "ENCUT" = false
    rw [dmem_dset, if_neg hfe]
    split
    · rw [dmem_dpop, if_pos rfl]
    · exact hc
  · split at h
    · split at h
      · injection h with he
        rw [← he]
        exact hc
      · exact Except.noConfusion h
    · split at h
      · injection h with he
        rw [← he]
        exact hc
      · injection h with he
        rw [← he]
        show dmem (dset cfg.incar ff (Val.flat (fget g ff))) "ENCUT" = false
        rw [dmem_dset, if_neg hfe]
        exact hc

theorem applyGroupEntry_prec_drops_encut {cfg cfg2 : Config} {g : FDict} {ff : String}
    (hpre : strLower ff = "prec")
    (h : applyGroupEntry cfg g ff = .ok cfg2) : dmem cfg2.incar "ENCUT" = false := by
  have hfe : ¬ ("ENCUT" = ff) := by
    intro hh
    rw [← hh] at hpre
    exact absurd hpre (by decide)
  unfold applyGroupEntry at h
  rw [if_pos hpre] at h
  injection h with he
  rw [← he]
  show dmem (dset _ ff (Val.flat (fget g ff))) "ENCUT" = false
  rw [dmem_dset, if_neg hfe]
  split
  · rw [dmem_dpop, if_pos rfl]
  · rename_i hmem
    simpa using hmem

theorem applyGroupEntries_encut_preserved {g : FDict} :
    ∀ (l : List (String × FVal)) (cfg cfg2 : Config), (∀ p ∈ l, p.1 ≠ "ENCUT") →
      dmem cfg.incar "ENCUT" = false → applyGroupEntries cfg g l = .ok cfg2 →
      dmem cfg2.incar "ENCUT" = false := by
  intro l
  induction l with
  | nil =>
    intro cfg cfg2 _ hc h
    injection h with he
    rw [← he]
    exact hc
  | cons p rest ih =>
    intro cfg cfg2 hall hc h
    unfold applyGroupEntries at h
    cases hE : applyGroupEntry cfg g p.1 with
    | error e =>
      rw [hE] at h
      exact Except.noConfusion h
    | ok next =>
      rw [hE] at h
      exact ih next cfg2 (fun q hq => hall q (List.mem_cons_of_mem p hq))
        (applyGroupEntry_encut_preserved (hall p (List.mem_cons_self p rest)) hc hE) h

theorem applyGroupEntries_encut_dropped {g : FDict} :
    ∀ (l : List (String × FVal)) (cfg cfg2 : Config), (∀ p ∈ l, p.1 ≠ "ENCUT") →
      (∃ p ∈ l, strLower p.1 = "prec") → applyGroupEntries cfg g l = .ok cfg2 →
      dmem cfg2.incar "ENCUT" = false := by
  intro l
  induction l with
  | nil =>
    rintro cfg cfg2 _ ⟨p, hp, _⟩ _
    cases hp
  | cons p rest ih =>
    rintro cfg cfg2 hall hex h
    unfold applyGroupEntries at h
    cases hE : applyGroupEntry cfg g p.1 with
    | error e =>
      rw [hE] at h
      exact Except.noConfusion h
    | ok next =>
      rw [hE] at h
      by_cases hpre : strLower p.1 = "prec"
      · exact applyGroupEntries_encut_preserved rest next cfg2
          (fun q hq => hall q (List.mem_cons_of_mem p hq))
          (applyGroupEntry_prec_drops_encut hpre hE) h
      · rcases hex with ⟨p0, hp0, hml⟩
        rcases List.mem_cons.mp hp0 with hh | hh
        · exact absurd (hh ▸ hml) hpre
        · exact ih next cfg2 (fun q hq => hall q (List.mem_cons_of_mem p hq))
            ⟨p0, hh, hml⟩ h

theorem applyGroupEntry_get_preserved {cfg cfg2 : Config} {g : FDict} {ff kf : String}
    (hne : ff ≠ kf) (hkf : kf ≠ "ENCUT")
    (h : applyGroupEntry cfg g ff = .ok cfg2) :
    dget? cfg2.incar kf = dget? cfg.incar kf := by
  have hkff : ¬ (kf = ff) := fun hh => hne hh.symm
  unfold applyGroupEntry at h
  split at h
  · injection h with he
    rw [← he]
    show dget? (dset _ ff (Val.flat (fget g ff))) kf = _
    rw [dget?_dset, if_neg hkff]
    split
    · rw [dget?_dpop, if_neg hkf]
    · rfl
  · split at h
    · split at h
      · injection h with he
        rw [← he]
      · exact Except.noConfusion h
    · split at h
      · injection h with he
        rw [← he]
      · injection h with he
        rw [← he]
        show dget? (dset cfg.incar ff (Val.flat (fget g ff))) kf = _
        rw [dget?_dset, if_neg hkff]

theorem applyGroupEntries_get_preserved {g : FDict} {kf : String} (hkf : kf ≠ "ENCUT") :
    ∀ (l : List (String × FVal)) (cfg cfg2 : Config), (∀ p ∈ l, p.1 ≠ kf) →
      applyGroupEntries cfg g l = .ok cfg2 →
      dget? cfg2.incar kf = dget? cfg.incar kf := by
  intro l
  induction l with
  | nil =>
    intro cfg cfg2 _ h
    injection h with he
    rw [← he]
  | cons p rest ih =>
    intro cfg cfg2 hall h
    unfold applyGroupEntries at h
    cases hE : applyGroupEntry cfg g p.1 with
    | error e =>
      rw [hE] at h
      exact Except.noConfusion h
    | ok next =>
      rw [hE] at h
      rw [ih next cfg2 (fun q hq => hall q (List.mem_cons_of_mem p hq)) h]
      exact applyGroupEntry_get_preserved (hall p (List.mem_cons_self p rest)) hkf hE

theorem applyGroupEntry_prec_set {cfg cfg2 : Config} {g : FDict} {kf : String} {v : FVal}
    (hpre : strLower kf = "prec") (hval : fget g kf = v)
    (h : applyGroupEntry cfg g kf = .ok cfg2) :
    dget? cfg2.incar kf = some (.flat v) := by
  unfold applyGroupEntry at h
  rw [if_pos hpre] at h
  injection h with he
  rw [← he]
  show dget? (dset _ kf (Val.flat (fget g kf))) kf = _
  rw [dget?_dset, if_pos rfl, hval]

theorem applyGroupEntries_prec_value {g : FDict} {kf : String} {v : FVal}
    (hpre : strLower kf = "prec") (hval : fget g kf = v) :
    ∀ (l : List (String × FVal)) (cfg cfg2 : Config), NodupKeys l →
      dmem l kf = true → applyGroupEntries cfg g l = .ok cfg2 →
      dget? cfg2.incar kf = some (.flat v) := by
  have hkf : kf ≠ "ENCUT" := by
    intro hh
    rw [hh] at hpre
    exact absurd hpre (by decide)
  intro l
  induction l with
  | nil =>
    intro cfg cfg2 _ hm
    cases hm
  | cons p rest ih =>
    intro cfg cfg2 hnd hm h
    simp only [NodupKeys, dkeys, List.map_cons, List.nodup_cons] at hnd
    unfold applyGroupEntries at h
    cases hE : applyGroupEntry cfg g p.1 with
    | error e =>
      rw [hE] at h
      exact Except.noConfusion h
    | ok next =>
      rw [hE] at h
      by_cases hp : p.1 = kf
      · rw [hp] at hE
        have hrest : ∀ q ∈ rest, q.1 ≠ kf := by
          intro q hq hqk
          exact hnd.1 (hp ▸ hqk ▸ List.mem_map_of_mem Prod.fst hq)
        rw [applyGroupEntries_get_preserved hkf rest next cfg2 hrest h]
        exact applyGroupEntry_prec_set hpre hval hE
      · have hm2 : dmem rest kf = true := by
          unfold dmem at hm
          rwa [if_neg hp] at hm
        exact ih next cfg2 hnd.2 hm2 h

/-! Transfer lemmas through the `EDIFFG` and `ISIF` rewrites of the
Relaxation profile. -/

theorem relaxEdiffgUis_get (args : RelaxArgs) (q : String) (h1 : ¬ (q = "EDIFFG")) :
    dget? (relaxEdiffgUis args) q = dget? args.uis q := by
  unfold relaxEdiffgUis
  split
  · split
    · rw [dget?_dpop, if_neg h1]
    · rfl
  · rfl

theorem relaxEdiffgUis_mem (args : RelaxArgs) (q : String) (h1 : ¬ (q = "EDIFFG")) :
    dmem (relaxEdiffgUis args) q = dmem args.uis q := by
  unfold relaxEdiffgUis
  split
  · split
    · rw [dmem_dpop, if_neg h1]
    · rfl
  · rfl

theorem relaxIsifUis_get (args : RelaxArgs) (q : String) (h1 : ¬ (q = "EDIFFG"))
    (h2 : ¬ (q = "ISIF")) :
    dget? (relaxIsifUis args) q = dget? args.uis q := by
  unfold relaxIsifUis
  split
  · rw [dget?_dset, if_neg h2]
    split
    · rw [dget?_dset, if_neg h2]
      exact relaxEdiffgUis_get args q h1
    · exact relaxEdiffgUis_get args q h1
  · split
    · rw [dget?_dset, if_neg h2]
      exact relaxEdiffgUis_get args q h1
    · exact relaxEdiffgUis_get args q h1

theorem relaxIsifUis_mem (args : RelaxArgs) (q : String) (h1 : ¬ (q = "EDIFFG"))
    (h2 : ¬ (q = "ISIF")) :
    dmem (relaxIsifUis args) q = dmem args.uis q := by
  unfold relaxIsifUis
  split
  · rw [dmem_dset, if_neg h2]
    split
    · rw [dmem_dset, if_neg h2]
      exact relaxEdiffgUis_mem args q h1
    · exact relaxEdiffgUis_mem args q h1
  · split
    · rw [dmem_dset, if_neg h2]
      exact relaxEdiffgUis_mem args q h1
    · exact relaxEdiffgUis_mem args q h1

/-- The override group located before the `EDIFFG` rewrite is still the
group located afterwards, provided it carries no `EDIFFG` entry. -/
theorem relax_group_transfer {args : RelaxArgs} {struct : List Nat} {g : FDict}
    (hg : resolvedGroup args.settings args.uis "Relax_settings" = some (.group g))
    (hgEd : dmem g "EDIFFG" = false) :
    resolvedGroup (relaxEdiffgSettings args) (spinUis struct (relaxIsifUis args))
      "Relax_settings" = some (.group g) := by
  have hu : dget? (spinUis struct (relaxIsifUis args)) "Relax_settings" =
      dget? args.uis "Relax_settings" := by
    rw [spinUis_dget _ _ _ (by decide)]
    exact relaxIsifUis_get args _ (by decide) (by decide)
  unfold relaxEdiffgSettings
  split
  · unfold resolvedGroup at hg ⊢
    rw [dget?_map_snd args.settings
      (fun d => if dmem d "EDIFFG" then dpop d "EDIFFG" else d) "Relax_settings", hu]
    cases hs : dget? args.settings "Relax_settings" with
    | none =>
      rw [hs] at hg
      exact hg
    | some g0 =>
      rw [hs] at hg
      cases g0 with
      | nil => exact hg
      | cons q rest =>
        have hg0 : q :: rest = g := by
          have h1 : pyOr (some (Val.group (q :: rest))) (dget? args.uis "Relax_settings") =
              some (Val.group g) := hg
          rw [show pyOr (some (Val.group (q :: rest))) (dget? args.uis "Relax_settings") =
              some (Val.group (q :: rest)) from by simp [pyOr, Val.truthy]] at h1
          exact Val.group.inj (Option.some.inj h1)
        subst hg0
        simp [pyOr, Val.truthy, hgEd]
  · unfold resolvedGroup at hg ⊢
    rw [hu]
    exact hg

/-- C2 (amended): in the Static and Relaxation profiles, if the resolved
override group contains an entry whose key lower-cases to `"prec"`, then
— provided neither the group itself nor the flat user overrides carry a
cutoff (`ENCUT`) entry, the flat overrides do not shadow that precision
key, and (for Relaxation) the group has no `EDIFFG` entry (which the
profile may strip) — the final parameters contain no `ENCUT` key,
regardless of the base template and baseline cutoffs, and the precision
key holds exactly the supplied value. -/
theorem claim_C2_prec_drops_encut :
    (∀ (base : BaseConfig) (struct : List Nat) (isif : Int) (args : ProfArgs)
        (g : FDict) (kf : String) (v : FVal) (cfg : Config),
      resolvedGroup args.settings args.uis "Static_settings" = some (.group g) →
      NodupKeys g → (kf, v) ∈ g → strLower kf = "prec" →
      dmem g "ENCUT" = false →
      dmem args.uis "ENCUT" = false → dmem args.uis kf = false →
      staticResolve base struct isif args = .ok cfg →
      dmem cfg.incar "ENCUT" = false ∧ dget? cfg.incar kf = some (.flat v)) ∧
    (∀ (base : BaseConfig) (struct : List Nat) (args : RelaxArgs)
        (g : FDict) (kf : String) (v : FVal) (cfg : Config),
      resolvedGroup args.settings args.uis "Relax_settings" = some (.group g) →
      NodupKeys g → (kf, v) ∈ g → strLower kf = "prec" →
      dmem g "ENCUT" = false → dmem g "EDIFFG" = false →
      dmem args.uis "ENCUT" = false → dmem args.uis kf = false →
      relaxResolve base struct args = .ok cfg →
      dmem cfg.incar "ENCUT" = false ∧ dget? cfg.incar kf = some (.flat v)) := by
  have hkf_facts : ∀ kf : String, strLower kf = "prec" →
      kf ≠ "ENCUT" ∧ ¬ (kf = "ISIF") ∧ ¬ (kf = "ISPIN") ∧ ¬ (kf = "EDIFFG") := by
    intro kf hpre
    refine ⟨?_, ?_, ?_, ?_⟩ <;> intro hh <;> rw [hh] at hpre <;>
      exact absurd hpre (by decide)
  constructor
  · intro base struct isif args g kf v cfg hg hnd hmem hpre hgE huE hukf hres
    obtain ⟨hkfE, hkfISIF, hkfISPIN, _⟩ := hkf_facts kf hpre
    cases hA : classConfigStatic base with
    | error e =>
      have : staticResolve base struct isif args = .error e := by
        unfold staticResolve
        rw [hA]
      rw [this] at hres
      exact Except.noConfusion hres
    | ok cfg0 =>
      rw [staticResolve_ok hA struct isif args] at hres
      cases hB : spinMagmomStep struct (staticUis isif args.uis) cfg0.incar with
      | error e =>
        rw [hB] at hres
        exact Except.noConfusion hres
      | ok ui =>
        obtain ⟨u, i⟩ := ui
        rw [hB] at hres
        have h2 : staticAfterSpin args cfg0 u i = .ok cfg := hres
        have hu_eq : ∀ q : String, ¬ (q = "ISPIN") → ¬ (q = "ISIF") →
            dget? u q = dget? args.uis q := by
          intro q hq1 hq2
          rw [spin_ok_uis hB, spinUis_dget _ _ _ hq1]
          unfold staticUis
          rw [dget?_dset, if_neg hq2]
        have hu_mem : ∀ q : String, ¬ (q = "ISPIN") → ¬ (q = "ISIF") →
            dmem u q = dmem args.uis q := by
          intro q hq1 hq2
          rw [spin_ok_uis hB, spinUis_dmem _ _ _ hq1]
          unfold staticUis
          rw [dmem_dset, if_neg hq2]
        have hgu : resolvedGroup args.settings u "Static_settings" = some (.group g) := by
          rw [resolvedGroup_congr_uis (hu_eq "Static_settings" (by decide) (by decide))]
          exact hg
        unfold staticAfterSpin at h2
        rw [hgu] at h2
        have ht : (Val.group g).truthy = true := by
          unfold Val.truthy
          cases g with
          | nil => cases hmem
          | cons q rest => simp [List.isEmpty]
        cases hC : applyGroupOpt { cfg0 with incar := i } (some (Val.group g)) with
        | error e =>
          rw [hC] at h2
          exact Except.noConfusion h2
        | ok cfg2 =>
          rw [hC] at h2
          have he : applyPot { cfg2 with incar := dupdate cfg2.incar u } args.pot = cfg :=
            Except.ok.inj h2
          have hC2 : applyGroupEntries { cfg0 with incar := i } g g = .ok cfg2 := by
            have := hC
            simp only [applyGroupOpt] at this
            rw [if_pos ht] at this
            exact this
          have hdropped : dmem cfg2.incar "ENCUT" = false :=
            applyGroupEntries_encut_dropped g _ cfg2 (dmem_false_forall hgE)
              ⟨(kf, v), hmem, hpre⟩ hC2
          have hfget : fget g kf = v := by
            unfold fget
            rw [dget?_of_mem_nodup hnd hmem]
            rfl
          have hgmem : dmem g kf = true :=
            (mem_dkeys_iff_dmem g kf).mp (List.mem_map_of_mem Prod.fst hmem)
          have hvalue : dget? cfg2.incar kf = some (.flat v) :=
            applyGroupEntries_prec_value hpre hfget g _ cfg2 hnd hgmem hC2
          have hcfg_incar : cfg.incar = dupdate cfg2.incar u := by
            rw [← he, applyPot_incar]
          have huE2 : dmem u "ENCUT" = false := by
            rw [hu_mem "ENCUT" (by decide) (by decide)]
            exact huE
          have hukf2 : dmem u kf = false := by
            rw [hu_mem kf hkfISPIN hkfISIF]
            exact hukf
          constructor
          · rw [hcfg_incar, dmem_dupdate, hdropped, huE2]
            rfl
          · rw [hcfg_incar, dget?_dupdate_of_not_mem _ _ _ hukf2]
            exact hvalue
  · intro base struct args g kf v cfg hg hnd hmem hpre hgE hgEd huE hukf hres
    obtain ⟨hkfE, hkfISIF, hkfISPIN, hkfEDIFFG⟩ := hkf_facts kf hpre
    by_cases hguard : (args.volume_relax && args.isif.isSome) = true
    · exfalso
      unfold relaxResolve at hres
      rw [if_pos hguard] at hres
      exact Except.noConfusion hres
    · have hguard2 : (args.volume_relax && args.isif.isSome) = false := by
        simpa using hguard
      cases hA : classConfigRelax base with
      | error e =>
        have : relaxResolve base struct args = .error e := by
          unfold relaxResolve
          rw [if_neg (by simp [hguard2]), hA]
        rw [this] at hres
        exact Except.noConfusion hres
      | ok cfg0 =>
        rw [relaxResolve_ok hA struct hguard2] at hres
        cases hB : spinMagmomStep struct (relaxIsifUis args) cfg0.incar with
        | error e =>
          rw [hB] at hres
          exact Except.noConfusion hres
        | ok ui =>
          obtain ⟨u, i⟩ := ui
          rw [hB] at hres
          have h2 : relaxAfterSpin args cfg0 u i = .ok cfg := hres
          have hu_mem : ∀ q : String, ¬ (q = "ISPIN") → ¬ (q = "ISIF") →
              ¬ (q = "EDIFFG") → dmem u q = dmem args.uis q := by
            intro q hq1 hq2 hq3
            rw [spin_ok_uis hB, spinUis_dmem _ _ _ hq1]
            exact relaxIsifUis_mem args q hq3 hq2
          have hgu : resolvedGroup (relaxEdiffgSettings args) u "Relax_settings" =
              some (.group g) := by
            rw [spin_ok_uis hB]
            exact relax_group_transfer hg hgEd
          unfold relaxAfterSpin at h2
          rw [hgu] at h2
          have ht : (Val.group g).truthy = true := by
            unfold Val.truthy
            cases g with
            | nil => cases hmem
            | cons q rest => simp [List.isEmpty]
          cases hC : applyGroupOpt { cfg0 with incar := i } (some (Val.group g)) with
          | error e =>
            rw [hC] at h2
            exact Except.noConfusion h2
          | ok cfg2 =>
            rw [hC] at h2
            have he : applyPot { cfg2 with incar := dupdate cfg2.incar u } args.pot = cfg :=
              Except.ok.inj h2
            have hC2 : applyGroupEntries { cfg0 with incar := i } g g = .ok cfg2 := by
              have := hC
              simp only [applyGroupOpt] at this
              rw [if_pos ht] at this
              exact this
            have hdropped : dmem cfg2.incar "ENCUT" = false :=
              applyGroupEntries_encut_dropped g _ cfg2 (dmem_false_forall hgE)
                ⟨(kf, v), hmem, hpre⟩ hC2
            have hfget : fget g kf = v := by
              unfold fget
              rw [dget?_of_mem_nodup hnd hmem]
              rfl
            have hgmem : dmem g kf = true :=
              (mem_dkeys_iff_dmem g kf).mp (List.mem_map_of_mem Prod.fst hmem)
            have hvalue : dget? cfg2.incar kf = some (.flat v) :=
              applyGroupEntries_prec_value hpre hfget g _ cfg2 hnd hgmem hC2
            have hcfg_incar : cfg.incar = dupdate cfg2.incar u := by
              rw [← he, applyPot_incar]
            have huE2 : dmem u "ENCUT" = false := by
              rw [hu_mem "ENCUT" (by decide) (by decide) (by decide)]
              exact huE
            have hukf2 : dmem u kf = false := by
              rw [hu_mem kf hkfISPIN hkfISIF hkfEDIFFG]
              exact hukf
            constructor
            · rw [hcfg_incar, dmem_dupdate, hdropped, huE2]
              rfl
            · rw [hcfg_incar, dget?_dupdate_of_not_mem _ _ _ hukf2]
              exact hvalue

/-- Witness for C2: both conjuncts at concrete inputs — a
`{'PREC': 'High'}` group supplied to the Static profile through the
nested settings, and to the Relaxation profile through the flat
overrides. -/
theorem claim_C2_witness :
    (dmem (getOk (staticResolve mpBase [14] 2
        { settings := [("Static_settings", [("PREC", .str "High")])] })).incar
        "ENCUT" = false ∧
      dget? (getOk (staticResolve mpBase [14] 2
        { settings := [("Static_settings", [("PREC", .str "High")])] })).incar
        "PREC" = some (.flat (.str "High"))) ∧
    (dmem (getOk (relaxResolve mpBase [14]
        { uis := [("Relax_settings", .group [("PREC", .str "High")])] })).incar
        "ENCUT" = false ∧
      dget? (getOk (relaxResolve mpBase [14]
        { uis := [("Relax_settings", .group [("PREC", .str "High")])] })).incar
        "PREC" = some (.flat (.str "High"))) := by
  constructor
  · exact claim_C2_prec_drops_encut.1 mpBase [14] 2
      { settings := [("Static_settings", [("PREC", .str "High")])] }
      [("PREC", .str "High")] "PREC" (.str "High") _
      (by decide) (by decide) (by decide) (by decide) (by decide) (by decide) (by decide)
      (by decide)
  · exact claim_C2_prec_drops_encut.2 mpBase [14]
      { uis := [("Relax_settings", .group [("PREC", .str "High")])] }
      [("PREC", .str "High")] "PREC" (.str "High") _
      (by decide) (by decide) (by decide) (by decide) (by decide) (by decide) (by decide)
      (by decide) (by decide)

/-! ### Claim C8 -/

theorem filteredUisStep_get_other {incar uis : VDict} {key q : String}
    (hne : ¬ (q = key)) :
    dget? (filteredUisStep incar uis key) q = dget? incar q := by
  unfold filteredUisStep
  split
  · rfl
  · split
    · split
      · rfl
      · rw [dget?_dset, if_neg hne]
    · split
      · rw [dget?_dset, if_neg hne]
      · split
        · rw [dget?_dset, if_neg hne]
        · split
          · rw [dget?_dset, if_neg hne]
          · rfl

theorem filteredUisStep_mem_other {incar uis : VDict} {key q : String}
    (hne : ¬ (q = key)) :
    dmem (filteredUisStep incar uis key) q = dmem incar q := by
  rw [dmem_eq_isSome, dmem_eq_isSome, filteredUisStep_get_other hne]

theorem filteredUisStep_mem_mono {incar uis : VDict} {key q : String}
    (h : dmem incar q = true) :
    dmem (filteredUisStep incar uis key) q = true := by
  by_cases hq : q = key
  · subst hq
    unfold filteredUisStep
    split
    · exact h
    · split
      · rename_i hmm
        rw [h] at hmm
        cases hmm
      · split
        · rw [dmem_dset, if_pos rfl]
        · split
          · rw [dmem_dset, if_pos rfl]
          · split
            · rw [dmem_dset, if_pos rfl]
            · exact h
  · rw [filteredUisStep_mem_other hq]
    exact h

theorem filteredUisStep_existing {incar uis : VDict} {key k : String}
    (hmem : dmem incar k = true) (h1 : ¬ (k = "ISPIN")) (h2 : ¬ (k = "ISMEAR"))
    (h3 : ¬ (k = "SIGMA")) :
    dget? (filteredUisStep incar uis key) k = dget? incar k := by
  by_cases hk : key = k
  · subst hk
    unfold filteredUisStep
    by_cases hE : key = "ENCUT"
    · rw [if_pos hE]
    · rw [if_neg hE, if_neg (by simp [hmem]), if_neg h1, if_neg h2, if_neg h3]
  · exact filteredUisStep_get_other (fun hh => hk hh.symm)

theorem filteredUisSteps_untouched {uis : VDict} {q : String} :
    ∀ (l : List (String × Val)) (incar : VDict), (∀ p ∈ l, ¬ (p.1 = q)) →
      dget? (filteredUisSteps incar uis l) q = dget? incar q := by
  intro l
  induction l with
  | nil => intro incar _; rfl
  | cons p rest ih =>
    intro incar hall
    unfold filteredUisSteps
    rw [ih _ (fun r hr => hall r (List.mem_cons_of_mem p hr))]
    exact filteredUisStep_get_other
      (fun hh => hall p (List.mem_cons_self p rest) hh.symm)

theorem filteredUisSteps_mem_mono {uis : VDict} {q : String} :
    ∀ (l : List (String × Val)) (incar : VDict), dmem incar q = true →
      dmem (filteredUisSteps incar uis l) q = true := by
  intro l
  induction l with
  | nil => intro incar h; exact h
  | cons p rest ih =>
    intro incar h
    unfold filteredUisSteps
    exact ih _ (filteredUisStep_mem_mono h)

theorem filteredUisSteps_existing {uis : VDict} {k : String}
    (h1 : ¬ (k = "ISPIN")) (h2 : ¬ (k = "ISMEAR")) (h3 : ¬ (k = "SIGMA")) :
    ∀ (l : List (String × Val)) (incar : VDict), dmem incar k = true →
      dget? (filteredUisSteps incar uis l) k = dget? incar k := by
  intro l
  induction l with
  | nil => intro incar _; rfl
  | cons p rest ih =>
    intro incar hmem
    unfold filteredUisSteps
    rw [ih _ (filteredUisStep_mem_mono hmem)]
    exact filteredUisStep_existing hmem h1 h2 h3

theorem filteredUisSteps_mem_after {uis : VDict} {k : String}
    (hskip : ¬ (k ∈ uisSkipKeys)) (hE : ¬ (k = "ENCUT")) :
    ∀ (l : List (String × Val)) (incar : VDict), dmem l k = true →
      dmem (filteredUisSteps incar uis l) k = true := by
  intro l
  induction l with
  | nil => intro incar h; cases h
  | cons p rest ih =>
    intro incar hm
    unfold filteredUisSteps
    by_cases hp : p.1 = k
    · apply filteredUisSteps_mem_mono
      rw [hp]
      unfold filteredUisStep
      rw [if_neg hE]
      by_cases hin : dmem incar k = false
      · rw [if_pos hin, if_neg hskip, dmem_dset, if_pos rfl]
      · rw [if_neg hin]
        by_cases hsp : k = "ISPIN"
        · rw [if_pos hsp, dmem_dset, if_pos rfl]
        · rw [if_neg hsp]
          by_cases hsm : k = "ISMEAR"
          · rw [if_pos hsm, dmem_dset, if_pos rfl]
          · rw [if_neg hsm]
            by_cases hsg : k = "SIGMA"
            · rw [if_pos hsg, dmem_dset, if_pos rfl]
            · rw [if_neg hsg]
              simpa using hin
    · have hm2 : dmem rest k = true := by
        unfold dmem at hm
        rwa [if_neg hp] at hm
      exact ih (filteredUisStep incar uis p.1) hm2

theorem filteredUisSteps_added {uis : VDict} {k : String} {v : Val}
    (hval : vget uis k = v) (hskip : ¬ (k ∈ uisSkipKeys)) (hE : ¬ (k = "ENCUT")) :
    ∀ (l : List (String × Val)) (incar : VDict), NodupKeys l → dmem l k = true →
      dmem incar k = false →
      dget? (filteredUisSteps incar uis l) k = some v := by
  intro l
  induction l with
  | nil => intro incar _ hm _; cases hm
  | cons p rest ih =>
    intro incar hnd hm hnc
    simp only [NodupKeys, dkeys, List.map_cons, List.nodup_cons] at hnd
    unfold filteredUisSteps
    by_cases hp : p.1 = k
    · have hrest : ∀ q ∈ rest, ¬ (q.1 = k) := by
        intro q hq hqk
        exact hnd.1 (hp ▸ hqk ▸ List.mem_map_of_mem Prod.fst hq)
      rw [filteredUisSteps_untouched rest _ hrest, hp]
      unfold filteredUisStep
      rw [if_neg hE, if_pos hnc, if_neg hskip, dget?_dset, if_pos rfl, hval]
    · have hm2 : dmem rest k = true := by
        unfold dmem at hm
        rwa [if_neg hp] at hm
      have hnc2 : dmem (filteredUisStep incar uis p.1) k = false := by
        rw [filteredUisStep_mem_other (fun hh => hp hh.symm)]
        exact hnc
      exact ih _ hnd.2 hm2 hnc2

theorem filteredUisSteps_special {uis : VDict} {k : String} {v : Val}
    (hval : vget uis k = v)
    (hsp : k = "ISPIN" ∨ k = "ISMEAR" ∨ k = "SIGMA") :
    ∀ (l : List (String × Val)) (incar : VDict), NodupKeys l → dmem l k = true →
      dmem incar k = true →
      dget? (filteredUisSteps incar uis l) k = some v := by
  have hE : ¬ (k = "ENCUT") := by
    rcases hsp with h | h | h <;> rw [h] <;> decide
  intro l
  induction l with
  | nil => intro incar _ hm _; cases hm
  | cons p rest ih =>
    intro incar hnd hm hc
    simp only [NodupKeys, dkeys, List.map_cons, List.nodup_cons] at hnd
    unfold filteredUisSteps
    by_cases hp : p.1 = k
    · have hrest : ∀ q ∈ rest, ¬ (q.1 = k) := by
        intro q hq hqk
        exact hnd.1 (hp ▸ hqk ▸ List.mem_map_of_mem Prod.fst hq)
      rw [filteredUisSteps_untouched rest _ hrest, hp]
      unfold filteredUisStep
      rw [if_neg hE, if_neg (by simp [hc])]
      rcases hsp with h | h | h
      · rw [if_pos h, dget?_dset, if_pos rfl, hval]
      · rw [if_neg (by rw [h]; decide), if_pos h, dget?_dset, if_pos rfl, hval]
      · rw [if_neg (by rw [h]; decide), if_neg (by rw [h]; decide), if_pos h,
          dget?_dset, if_pos rfl, hval]
    · have hm2 : dmem rest k = true := by
        unfold dmem at hm
        rwa [if_neg hp] at hm
      exact ih _ hnd.2 hm2 (filteredUisStep_mem_mono hc)

/-- C8 (amended): the final flat user-override layer is a plain
overwrite (`INCAR.update(uis)`) in the Relaxation, Pre-static,
Force-Constants and Static profiles — every override key ends up in the
parameters with the user value (conjunct iv) — but in the Born-Charge
and Elastic profiles the loop is filtered: a key absent from the current
parameters is added with the user value unless it is the cutoff key or
lies in the skip set `{NELM, EDIFF, NEDOS, KPOINT_BSE}` (conjunct i,
the opaque passthrough of unknown keys); a key already present is left
untouched unless it is `ISPIN`, `ISMEAR` or `SIGMA` (conjunct ii), which
alone are overwritten with the user value (conjunct iii). -/
theorem claim_C8_flat_override_layer :
    (∀ (incar uis : VDict) (k : String) (v : Val), NodupKeys uis → (k, v) ∈ uis →
      dmem incar k = false → ¬ (k ∈ uisSkipKeys) → ¬ (k = "ENCUT") →
      dget? (filteredUisApply incar uis) k = some v) ∧
    (∀ (incar uis : VDict) (k : String), dmem incar k = true →
      ¬ (k = "ISPIN") → ¬ (k = "ISMEAR") → ¬ (k = "SIGMA") →
      dget? (filteredUisApply incar uis) k = dget? incar k) ∧
    (∀ (incar uis : VDict) (k : String) (v : Val), NodupKeys uis → (k, v) ∈ uis →
      dmem incar k = true → (k = "ISPIN" ∨ k = "ISMEAR" ∨ k = "SIGMA") →
      dget? (filteredUisApply incar uis) k = some v) ∧
    (∀ (incar uis : VDict) (k : String) (v : Val), NodupKeys uis → (k, v) ∈ uis →
      dget? (dupdate incar uis) k = some v) := by
  refine ⟨?_, ?_, ?_, ?_⟩
  · intro incar uis k v hnd hmem hnc hskip hE
    have hval : vget uis k = v := by
      unfold vget
      rw [dget?_of_mem_nodup hnd hmem]
      rfl
    have hm : dmem uis k = true :=
      (mem_dkeys_iff_dmem uis k).mp (List.mem_map_of_mem Prod.fst hmem)
    exact filteredUisSteps_added hval hskip hE uis incar hnd hm hnc
  · intro incar uis k hc h1 h2 h3
    exact filteredUisSteps_existing h1 h2 h3 uis incar hc
  · intro incar uis k v hnd hmem hc hsp
    have hval : vget uis k = v := by
      unfold vget
      rw [dget?_of_mem_nodup hnd hmem]
      rfl
    have hm : dmem uis k = true :=
      (mem_dkeys_iff_dmem uis k).mp (List.mem_map_of_mem Prod.fst hmem)
    exact filteredUisSteps_special hval hsp uis incar hnd hm hc
  · intro incar uis k v hnd hmem
    exact dget?_dupdate_of_get hnd (dget?_of_mem_nodup hnd hmem) incar

/-- Witness for C8: the four conjuncts evaluated on small concrete
dicts. -/
theorem claim_C8_witness :
    dget? (filteredUisApply [("ALGO", vs "NORMAL"), ("SIGMA", vf 5 2)]
      [("FOO", vi 1), ("ALGO", vs "Fast"), ("SIGMA", vi 0)]) "FOO" = some (vi 1) ∧
    dget? (filteredUisApply [("ALGO", vs "NORMAL"), ("SIGMA", vf 5 2)]
        [("FOO", vi 1), ("ALGO", vs "Fast"), ("SIGMA", vi 0)]) "ALGO" =
      dget? [("ALGO", vs "NORMAL"), ("SIGMA", vf 5 2)] "ALGO" ∧
    dget? (filteredUisApply [("ALGO", vs "NORMAL"), ("SIGMA", vf 5 2)]
      [("FOO", vi 1), ("ALGO", vs "Fast"), ("SIGMA", vi 0)]) "SIGMA" = some (vi 0) ∧
    dget? (dupdate [("ALGO", vs "NORMAL"), ("SIGMA", vf 5 2)]
      [("FOO", vi 1), ("ALGO", vs "Fast"), ("SIGMA", vi 0)]) "ALGO" =
        some (vs "Fast") := by
  refine ⟨?_, ?_, ?_, ?_⟩
  · exact claim_C8_flat_override_layer.1 [("ALGO", vs "NORMAL"), ("SIGMA", vf 5 2)]
      [("FOO", vi 1), ("ALGO", vs "Fast"), ("SIGMA", vi 0)] "FOO" (vi 1)
      (by decide) (by decide) (by decide) (by decide) (by decide)
  · exact claim_C8_flat_override_layer.2.1 [("ALGO", vs "NORMAL"), ("SIGMA", vf 5 2)]
      [("FOO", vi 1), ("ALGO", vs "Fast"), ("SIGMA", vi 0)] "ALGO"
      (by decide) (by decide) (by decide) (by decide)
  · exact claim_C8_flat_override_layer.2.2.1 [("ALGO", vs "NORMAL"), ("SIGMA", vf 5 2)]
      [("FOO", vi 1), ("ALGO", vs "Fast"), ("SIGMA", vi 0)] "SIGMA" (vi 0)
      (by decide) (by decide) (by decide) (by decide)
  · exact claim_C8_flat_override_layer.2.2.2 [("ALGO", vs "NORMAL"), ("SIGMA", vf 5 2)]
      [("FOO", vi 1), ("ALGO", vs "Fast"), ("SIGMA", vi 0)] "ALGO" (vs "Fast")
      (by decide) (by decide)

/-! ### Claim C10 -/

theorem filteredUisSteps_untouched_mem {uis : VDict} {q : String}
    (l : List (String × Val)) (incar : VDict) (hall : ∀ p ∈ l, ¬ (p.1 = q)) :
    dmem (filteredUisSteps incar uis l) q = dmem incar q := by
  rw [dmem_eq_isSome, dmem_eq_isSome, filteredUisSteps_untouched l incar hall]

theorem sigmaIsmearPop_get {incar : VDict} {q : String} (hq : ¬ (q = "SIGMA")) :
    dget? (sigmaIsmearPop incar) q = dget? incar q := by
  unfold sigmaIsmearPop
  split
  · split
    · split
      · rw [dget?_dpop, if_neg hq]
      · rfl
    · rfl
  · rfl

theorem sigmaIsmearPop_mem {incar : VDict} {q : String} (hq : ¬ (q = "SIGMA")) :
    dmem (sigmaIsmearPop incar) q = dmem incar q := by
  rw [dmem_eq_isSome, dmem_eq_isSome, sigmaIsmearPop_get hq]

theorem classConfigBorn_ok_incar {base : BaseConfig} {cfg0 : Config}
    (hA : classConfigBorn base = .ok cfg0) :
    cfg0.incar = dupdate base.incar bornIncarUpdates := by
  unfold classConfigBorn at hA
  cases hB : classKpoints base 8000 with
  | error e =>
    rw [hB] at hA
    exact Except.noConfusion hA
  | ok kp =>
    rw [hB] at hA
    injection hA with he
    rw [← he]

/-- The Born-Charge baseline always carries `LEPSILON = True`. -/
theorem born_baseline_lepsilon (base : BaseConfig) :
    dget? (dupdate base.incar bornIncarUpdates) "LEPSILON" = some (vb true) :=
  dget?_dupdate_of_get (by decide) (by decide) base.incar

theorem born_baseline_lepsilon_mem (base : BaseConfig) :
    dmem (dupdate base.incar bornIncarUpdates) "LEPSILON" = true := by
  rw [dmem_eq_isSome, born_baseline_lepsilon]
  rfl

/-- C10 (amended): in the Born-Charge profile with no `Born_settings`
override group, (i) if the flat user overrides contain `LCALCEPS` and do
not themselves contain `LEPSILON`, the baseline `LEPSILON` is removed
before merging and the final parameters contain `LCALCEPS` but not
`LEPSILON`; (ii) if `LCALCEPS` is absent from the user overrides,
`LEPSILON` remains present with value `True` (a user-supplied `LEPSILON`
cannot even overwrite it, since the filtered override loop ignores it). -/
theorem claim_C10_lcalceps_lepsilon_exchange (base : BaseConfig) (struct : List Nat)
    (args : ProfArgs) (cfg : Config)
    (hs : dmem args.settings "Born_settings" = false)
    (hu : dmem args.uis "Born_settings" = false)
    (hres : bornResolve base struct args = .ok cfg) :
    (dmem args.uis "LCALCEPS" = true → dmem args.uis "LEPSILON" = false →
      dmem cfg.incar "LCALCEPS" = true ∧ dmem cfg.incar "LEPSILON" = false) ∧
    (dmem args.uis "LCALCEPS" = false →
      dget? cfg.incar "LEPSILON" = some (vb true)) := by
  cases hA : classConfigBorn base with
  | error e =>
    exfalso
    have : bornResolve base struct args = .error e := by
      unfold bornResolve
      rw [hA]
    rw [this] at hres
    exact Except.noConfusion hres
  | ok cfg0 =>
    rw [bornResolve_ok hA struct args] at hres
    cases hB : spinMagmomStep struct args.uis (bornLcalcepsIncar args.uis cfg0.incar) with
    | error e =>
      rw [hB] at hres
      exact Except.noConfusion hres
    | ok ui =>
      obtain ⟨u, i⟩ := ui
      rw [hB] at hres
      have h2 : bornAfterSpin args cfg0 u i = .ok cfg := hres
      have hnone : resolvedGroup args.settings u "Born_settings" = none := by
        rw [spin_ok_uis hB]
        unfold resolvedGroup
        rw [dget?_of_not_dmem hs, spinUis_dget _ _ _ (by decide), dget?_of_not_dmem hu]
        rfl
      unfold bornAfterSpin at h2
      rw [hnone] at h2
      have h3 : applyPot
          { cfg0 with incar := sigmaIsmearPop (filteredUisApply i u) } args.pot = cfg :=
        Except.ok.inj h2
      have hincar : cfg.incar = sigmaIsmearPop (filteredUisApply i u) := by
        rw [← h3, applyPot_incar]
      have hincarBorn : cfg0.incar = dupdate base.incar bornIncarUpdates :=
        classConfigBorn_ok_incar hA
      have hspin_i : (dmem (spinUis struct args.uis) "magmom" = true ∧
          i = (if dmem (bornLcalcepsIncar args.uis cfg0.incar) "MAGMOM" then
            dpop (bornLcalcepsIncar args.uis cfg0.incar) "MAGMOM"
            else bornLcalcepsIncar args.uis cfg0.incar)) ∨
          (dmem (spinUis struct args.uis) "magmom" = false ∧
            i = bornLcalcepsIncar args.uis cfg0.incar) := spin_ok_incar hB
      have hi_get : ∀ q : String, ¬ (q = "MAGMOM") →
          dget? i q = dget? (bornLcalcepsIncar args.uis cfg0.incar) q := by
        intro q hq
        rcases hspin_i with ⟨_, hi⟩ | ⟨_, hi⟩
        · rw [hi]
          split
          · rw [dget?_dpop, if_neg hq]
          · rfl
        · rw [hi]
      have hi_mem : ∀ q : String, ¬ (q = "MAGMOM") →
          dmem i q = dmem (bornLcalcepsIncar args.uis cfg0.incar) q := by
        intro q hq
        rw [dmem_eq_isSome, dmem_eq_isSome, hi_get q hq]
      constructor
      · intro hL hLeps
        have hi0_lep : dmem (bornLcalcepsIncar args.uis cfg0.incar) "LEPSILON" = false := by
          unfold bornLcalcepsIncar
          rw [if_pos hL, if_pos (hincarBorn ▸ born_baseline_lepsilon_mem base),
            dmem_dpop, if_pos rfl]
        have hi_lep : dmem i "LEPSILON" = false := by
          rw [hi_mem "LEPSILON" (by decide)]
          exact hi0_lep
        have hu_lep : dmem u "LEPSILON" = false := by
          rw [spin_ok_uis hB, spinUis_dmem _ _ _ (by decide)]
          exact hLeps
        have hu_lcal : dmem u "LCALCEPS" = true := by
          rw [spin_ok_uis hB, spinUis_dmem _ _ _ (by decide)]
          exact hL
        constructor
        · rw [hincar, sigmaIsmearPop_mem (by decide)]
          exact filteredUisSteps_mem_after (by decide) (by decide) u i hu_lcal
        · rw [hincar, sigmaIsmearPop_mem (by decide)]
          show dmem (filteredUisSteps i u u) "LEPSILON" = false
          rw [filteredUisSteps_untouched_mem u i (dmem_false_forall hu_lep)]
          exact hi_lep
      · intro hL
        have hi0 : bornLcalcepsIncar args.uis cfg0.incar = cfg0.incar := by
          unfold bornLcalcepsIncar
          rw [if_neg (by simp [hL])]
        have hi_lep : dget? i "LEPSILON" = some (vb true) := by
          rw [hi_get "LEPSILON" (by decide), hi0, hincarBorn]
          exact born_baseline_lepsilon base
        have hi_lep_mem : dmem i "LEPSILON" = true := by
          rw [dmem_eq_isSome, hi_lep]
          rfl
        rw [hincar, sigmaIsmearPop_get (by decide)]
        show dget? (filteredUisSteps i u u) "LEPSILON" = some (vb true)
        rw [filteredUisSteps_existing (by decide) (by decide) (by decide) u i hi_lep_mem]
        exact hi_lep

/-- Witness for C10: both conjuncts at concrete inputs — overrides with
`LCALCEPS` only, and overrides without `LCALCEPS`. -/
theorem claim_C10_witness :
    (dmem (getOk (bornResolve mpBase [14] { uis := [("LCALCEPS", vb true)] })).incar
        "LCALCEPS" = true ∧
      dmem (getOk (bornResolve mpBase [14] { uis := [("LCALCEPS", vb true)] })).incar
        "LEPSILON" = false) ∧
    dget? (getOk (bornResolve mpBase [14] { uis := [("NSW", vi 3)] })).incar
      "LEPSILON" = some (vb true) := by
  constructor
  · exact (claim_C10_lcalceps_lepsilon_exchange mpBase [14]
      { uis := [("LCALCEPS", vb true)] } _ (by decide) (by decide) (by decide)).1
      (by decide) (by decide)
  · exact (claim_C10_lcalceps_lepsilon_exchange mpBase [14]
      { uis := [("NSW", vi 3)] } _ (by decide) (by decide) (by decide)).2 (by decide)

/-! ### Claim C7 (amended idempotence) -/

theorem classConfigStatic_ok_incar {base : BaseConfig} {cfg0 : Config}
    (hA : classConfigStatic base = .ok cfg0) :
    cfg0.incar = dupdate base.incar staticIncarUpdates := by
  unfold classConfigStatic at hA
  cases hB : classKpoints base 8000 with
  | error e =>
    rw [hB] at hA
    exact Except.noConfusion hA
  | ok kp =>
    rw [hB] at hA
    injection hA with he
    rw [← he]

/-- Running the group-free Static profile a second time on a
self-reproducing override dict: if the flat overrides of the second call
are exactly the first bundle's parameters (so they already carry `ISIF`,
`ISPIN` and no group key) and the spin/moment step succeeds without
changing the overrides, the second bundle is dict-equal to the first. -/
theorem static_second_run {base : BaseConfig} {cfg0 b1 : Config} {struct : List Nat}
    {isif : Int} {i2 : VDict}
    (hA : classConfigStatic base = .ok cfg0)
    (hnb1 : NodupKeys b1.incar)
    (hni2 : NodupKeys i2)
    (hb1isif : dget? b1.incar "ISIF" = some (vi isif))
    (hb1ss : dmem b1.incar "Static_settings" = false)
    (hB2 : spinMagmomStep struct (staticUis isif b1.incar) cfg0.incar =
      .ok (staticUis isif b1.incar, i2))
    (hK : ∀ q, dmem b1.incar q = false → dmem i2 q = false) :
    ∃ b2, staticResolve base struct isif { uis := b1.incar } = .ok b2 ∧
      dictEquivB b2.incar b1.incar = true ∧ b2.kpoints = cfg0.kpoints ∧
      b2.potcar = cfg0.potcar ∧ b2.functional = cfg0.functional := by
  have hu2ext : ∀ q, dget? (staticUis isif b1.incar) q = dget? b1.incar q := by
    intro q
    unfold staticUis
    rw [dget?_dset]
    by_cases hq : q = "ISIF"
    · rw [if_pos hq, hq, hb1isif]
    · rw [if_neg hq]
  have hnone2 : resolvedGroup ({ uis := b1.incar } : ProfArgs).settings
      (staticUis isif b1.incar) "Static_settings" = none := by
    unfold resolvedGroup
    rw [hu2ext "Static_settings", dget?_of_not_dmem hb1ss]
    rfl
  have h2run : staticResolve base struct isif { uis := b1.incar } =
      .ok { cfg0 with incar := dupdate i2 (staticUis isif b1.incar) } := by
    rw [staticResolve_ok2 hA hB2]
    unfold staticAfterSpin
    rw [hnone2]
    rfl
  have hnu2 : NodupKeys (staticUis isif b1.incar) := nodup_dset hnb1 _ _
  refine ⟨{ cfg0 with incar := dupdate i2 (staticUis isif b1.incar) },
    h2run, ?_, rfl, rfl, rfl⟩
  apply dictEquivB_of_ext (nodup_dupdate hni2 _) hnb1
  intro q
  show dget? (dupdate i2 (staticUis isif b1.incar)) q = dget? b1.incar q
  cases hq : dget? (staticUis isif b1.incar) q with
  | some v =>
    rw [dget?_dupdate_of_get hnu2 hq i2, ← hq, hu2ext q]
  | none =>
    have hm2 : dmem (staticUis isif b1.incar) q = false := by
      rw [dmem_eq_isSome, hq]
      rfl
    rw [dget?_dupdate_of_not_mem _ _ _ hm2]
    have hb1q : dget? b1.incar q = none := by
      rw [← hu2ext q]
      exact hq
    have hb1qm : dmem b1.incar q = false := by
      rw [dmem_eq_isSome, hb1q]
      rfl
    rw [hb1q]
    exact dget?_of_not_dmem (hK q hb1qm)

/-- C7 (amended): group-free idempotence of the Static profile.  For any
base template and structure, if a first resolution uses no override
group (neither a nested settings group nor a `Static_settings` key in
the flat overrides or the base template) and no functional override,
then re-resolving with the first bundle's full parameters fed back as
the flat user overrides — again with no group — succeeds and reproduces
the first bundle: equal parameters (as dicts), sampling,
pseudopotentials and functional.  (As stated originally — with the
first resolution allowed an override group — the claim is false; see the
counterexample.) -/
theorem claim_C7_static_idempotent_no_group (base : BaseConfig) (struct : List Nat)
    (isif : Int) (uis1 : VDict) (b1 : Config)
    (hnb : NodupKeys base.incar)
    (hnu : NodupKeys uis1)
    (hbs : dmem base.incar "Static_settings" = false)
    (hus : dmem uis1 "Static_settings" = false)
    (h1 : staticResolve base struct isif { uis := uis1 } = .ok b1) :
    ∃ b2, staticResolve base struct isif { uis := b1.incar } = .ok b2 ∧
      dictEquivB b2.incar b1.incar = true ∧ b2.kpoints = b1.kpoints ∧
      b2.potcar = b1.potcar ∧ b2.functional = b1.functional := by
  cases hA : classConfigStatic base with
  | error e =>
    exfalso
    have : staticResolve base struct isif { uis := uis1 } = .error e := by
      unfold staticResolve
      rw [hA]
    rw [this] at h1
    exact Except.noConfusion h1
  | ok cfg0 =>
    have hc0i : cfg0.incar = dupdate base.incar staticIncarUpdates :=
      classConfigStatic_ok_incar hA
    have hnc0 : NodupKeys cfg0.incar := by
      rw [hc0i]
      exact nodup_dupdate hnb _
    have hc0ss : dmem cfg0.incar "Static_settings" = false := by
      rw [hc0i, dmem_dupdate, hbs,
        (by decide : dmem staticIncarUpdates "Static_settings" = false)]
      rfl
    rw [staticResolve_ok hA struct isif { uis := uis1 }] at h1
    cases hB1 : spinMagmomStep struct (staticUis isif uis1) cfg0.incar with
    | error e =>
      rw [hB1] at h1
      exact Except.noConfusion h1
    | ok ui =>
      obtain ⟨u1, i1⟩ := ui
      rw [hB1] at h1
      have hu1 := spin_ok_uis hB1
      subst hu1
      have h1b : staticAfterSpin { uis := uis1 } cfg0
          (spinUis struct (staticUis isif uis1)) i1 = .ok b1 := h1
      have hnone1 : resolvedGroup ({ uis := uis1 } : ProfArgs).settings
          (spinUis struct (staticUis isif uis1)) "Static_settings" = none := by
        unfold resolvedGroup
        rw [spinUis_dget _ _ _ (by decide)]
        unfold staticUis
        rw [dget?_dset, if_neg (by decide), dget?_of_not_dmem hus]
        rfl
      unfold staticAfterSpin at h1b
      rw [hnone1] at h1b
      have hb1 : ({ cfg0 with
          incar := dupdate i1 (spinUis struct (staticUis isif uis1)) } : Config) = b1 :=
        Except.ok.inj h1b
      have hnu1 : NodupKeys (spinUis struct (staticUis isif uis1)) :=
        spinUis_nodup (nodup_dset hnu _ _) struct
      have hIsifU : dget? (spinUis struct (staticUis isif uis1)) "ISIF" =
          some (vi isif) := by
        rw [spinUis_dget _ _ _ (by decide)]
        unfold staticUis
        rw [dget?_dset, if_pos rfl]
      have hb1_isif : dget? b1.incar "ISIF" = some (vi isif) := by
        rw [← hb1]
        exact dget?_dupdate_of_get hnu1 hIsifU i1
      have hmemIspin : dmem (spinUis struct (staticUis isif uis1)) "ISPIN" = true :=
        spinUis_ispin_mem struct _
      obtain ⟨sv, hsv⟩ := (dmem_iff_dget? _ _).mp hmemIspin
      have hb1_ispin : dget? b1.incar "ISPIN" = some sv := by
        rw [← hb1]
        exact dget?_dupdate_of_get hnu1 hsv i1
      have hUss : dmem (spinUis struct (staticUis isif uis1)) "Static_settings" =
          false := by
        rw [spinUis_dmem _ _ _ (by decide)]
        unfold staticUis
        rw [dmem_dset, if_neg (by decide)]
        exact hus
      have hni1 : NodupKeys i1 := by
        rcases spin_ok_incar hB1 with ⟨_, hi⟩ | ⟨_, hi⟩
        · rw [hi]
          split
          · exact nodup_dpop hnc0 _
          · exact hnc0
        · rw [hi]
          exact hnc0
      have hi1sub : ∀ q, dmem i1 q = true → dmem cfg0.incar q = true := by
        rcases spin_ok_incar hB1 with ⟨_, hi⟩ | ⟨_, hi⟩
        · intro q hq
          rw [hi] at hq
          by_cases hqM : dmem cfg0.incar "MAGMOM" = true
          · rw [if_pos hqM, dmem_dpop] at hq
            by_cases hqq : q = "MAGMOM"
            · rw [if_pos hqq] at hq
              cases hq
            · rwa [if_neg hqq] at hq
          · rwa [if_neg hqM] at hq
        · intro q hq
          rw [hi] at hq
          exact hq
      have hnb1' : NodupKeys b1.incar := by
        rw [← hb1]
        exact nodup_dupdate hni1 _
      have hi1ss : dmem i1 "Static_settings" = false := by
        cases hI : dmem i1 "Static_settings"
        · rfl
        · exact absurd (hi1sub _ hI) (by simp [hc0ss])
      have hb1_ss : dmem b1.incar "Static_settings" = false := by
        rw [← hb1]
        show dmem (dupdate i1 _) "Static_settings" = false
        rw [dmem_dupdate, hUss, hi1ss]
        rfl
      have hb1magmomEq : dmem b1.incar "magmom" =
          (dmem i1 "magmom" || dmem (spinUis struct (staticUis isif uis1)) "magmom") := by
        rw [← hb1]
        exact dmem_dupdate i1 _ "magmom"
      have hu2mem : ∀ q, dmem (staticUis isif b1.incar) q = dmem b1.incar q := by
        intro q
        unfold staticUis
        rw [dmem_dset]
        by_cases hq : q = "ISIF"
        · rw [if_pos hq, hq, dmem_eq_isSome, hb1_isif]
          rfl
        · rw [if_neg hq]
      have hequ : spinUis struct (staticUis isif b1.incar) = staticUis isif b1.incar := by
        unfold spinUis
        rw [if_pos (by rw [hu2mem "ISPIN", dmem_eq_isSome, hb1_ispin]; rfl)]
      have hIsp2 : dget? (staticUis isif b1.incar) "ISPIN" = some sv := by
        show dget? (dset b1.incar "ISIF" (vi isif)) "ISPIN" = some sv
        rw [dget?_dset, if_neg (by decide)]
        exact hb1_ispin
      have hIspEq : ispinIsOne (staticUis isif b1.incar) =
          ispinIsOne (spinUis struct (staticUis isif uis1)) := by
        unfold ispinIsOne
        rw [hIsp2, hsv]
      have hKsplit : ∀ q, dmem b1.incar q = false →
          dmem i1 q = false ∧
          dmem (spinUis struct (staticUis isif uis1)) q = false := by
        intro q hq
        rw [← hb1] at hq
        have hq' : (dmem i1 q ||
            dmem (spinUis struct (staticUis isif uis1)) q) = false := by
          rw [← dmem_dupdate]
          exact hq
        exact Bool.or_eq_false_iff.mp hq'
      rcases spin_ok_incar hB1 with ⟨hm1, hi1⟩ | ⟨hm1, hi1⟩
      · -- first call took the magmom branch
        have hMu2 : dmem (spinUis struct (staticUis isif b1.incar)) "magmom" = true := by
          rw [hequ, hu2mem "magmom", hb1magmomEq, hm1, Bool.or_true]
        have hB2 := @spin_eval_magmom struct (staticUis isif b1.incar)
          cfg0.incar hMu2
        rw [hequ, ← hi1] at hB2
        have hK : ∀ q, dmem b1.incar q = false → dmem i1 q = false :=
          fun q hq => (hKsplit q hq).1
        obtain ⟨b2, hrun, hdict, hkp, hpc, hfn⟩ :=
          static_second_run hA hnb1' hni1 hb1_isif hb1_ss hB2 hK
        exact ⟨b2, hrun, hdict, by rw [hkp, ← hb1], by rw [hpc, ← hb1],
          by rw [hfn, ← hb1]⟩
      · -- first call took a non-magmom branch, i1 = cfg0.incar
        cases hMc : dmem cfg0.incar "magmom" with
        | true =>
          have hMu2 : dmem (spinUis struct (staticUis isif b1.incar)) "magmom" = true := by
            rw [hequ, hu2mem "magmom", hb1magmomEq, hm1, Bool.or_false, hi1]
            exact hMc
          have hB2 := @spin_eval_magmom struct (staticUis isif b1.incar)
            cfg0.incar hMu2
          rw [hequ] at hB2
          have hni2 : NodupKeys (if dmem cfg0.incar "MAGMOM" then
              dpop cfg0.incar "MAGMOM" else cfg0.incar) := by
            split
            · exact nodup_dpop hnc0 _
            · exact hnc0
          have hK : ∀ q, dmem b1.incar q = false →
              dmem (if dmem cfg0.incar "MAGMOM" then
                dpop cfg0.incar "MAGMOM" else cfg0.incar) q = false := by
            intro q hq
            have hcq : dmem cfg0.incar q = false := by
              rw [← hi1]
              exact (hKsplit q hq).1
            split
            · rw [dmem_dpop]
              by_cases hqq : q = "MAGMOM"
              · rw [if_pos hqq]
              · rw [if_neg hqq]
                exact hcq
            · exact hcq
          obtain ⟨b2, hrun, hdict, hkp, hpc, hfn⟩ :=
            static_second_run hA hnb1' hni2 hb1_isif hb1_ss hB2 hK
          exact ⟨b2, hrun, hdict, by rw [hkp, ← hb1], by rw [hpc, ← hb1],
            by rw [hfn, ← hb1]⟩
        | false =>
          have hMu2 : dmem (spinUis struct (staticUis isif b1.incar)) "magmom" = false := by
            rw [hequ, hu2mem "magmom", hb1magmomEq, hm1, Bool.or_false, hi1]
            exact hMc
          have hK : ∀ q, dmem b1.incar q = false → dmem cfg0.incar q = false := by
            intro q hq
            rw [← hi1]
            exact (hKsplit q hq).1
          cases hOne : ispinIsOne (spinUis struct (staticUis isif uis1)) with
          | false =>
            have hB2 := @spin_eval_not1 struct
              (staticUis isif b1.incar) cfg0.incar hMu2
              (by rw [hequ, hIspEq]; exact hOne)
            rw [hequ] at hB2
            obtain ⟨b2, hrun, hdict, hkp, hpc, hfn⟩ :=
              static_second_run hA hnb1' hnc0 hb1_isif hb1_ss hB2 hK
            exact ⟨b2, hrun, hdict, by rw [hkp, ← hb1], by rw [hpc, ← hb1],
              by rw [hfn, ← hb1]⟩
          | true =>
            obtain ⟨hMgU, hMgI⟩ := spin_ok_magmon hB1 hm1 hOne
            have hMgu2 : dmem (spinUis struct (staticUis isif b1.incar)) "MAGMON" =
                false := by
              rw [hequ, hu2mem "MAGMON", ← hb1]
              show dmem (dupdate i1 _) "MAGMON" = false
              rw [dmem_dupdate, hMgU, hi1, hMgI]
              rfl
            have hB2 := @spin_eval_one struct
              (staticUis isif b1.incar) cfg0.incar hMu2
              (by rw [hequ, hIspEq]; exact hOne) hMgu2 hMgI
            rw [hequ] at hB2
            obtain ⟨b2, hrun, hdict, hkp, hpc, hfn⟩ :=
              static_second_run hA hnb1' hnc0 hb1_isif hb1_ss hB2 hK
            exact ⟨b2, hrun, hdict, by rw [hkp, ← hb1], by rw [hpc, ← hb1],
              by rw [hfn, ← hb1]⟩

/-- Witness for C7 at a concrete input: a group-free Static resolution
with one flat override, fed back into a second resolution. -/
theorem claim_C7_witness :
    ∃ b2, staticResolve mpBase [14] 2
        { uis := (getOk (staticResolve mpBase [14] 2 { uis := [("NSW", vi 5)] })).incar } =
        .ok b2 ∧
      dictEquivB b2.incar
        (getOk (staticResolve mpBase [14] 2 { uis := [("NSW", vi 5)] })).incar = true ∧
      b2.kpoints = (getOk (staticResolve mpBase [14] 2 { uis := [("NSW", vi 5)] })).kpoints ∧
      b2.potcar = (getOk (staticResolve mpBase [14] 2 { uis := [("NSW", vi 5)] })).potcar ∧
      b2.functional =
        (getOk (staticResolve mpBase [14] 2 { uis := [("NSW", vi 5)] })).functional :=
  claim_C7_static_idempotent_no_group mpBase [14] 2 [("NSW", vi 5)]
    (getOk (staticResolve mpBase [14] 2 { uis := [("NSW", vi 5)] }))
    (by decide) (by decide) (by decide) (by decide) (by decide)

end DFTTK
